import Mathlib

/-!
# Verification of the capture pipeline of `src/user/capture.c`

A shallow embedding of the embedded-sync decoder (`put_data`, `process`), of the completion
callback `gotdata` with its block loop, and of the count of transfers in flight kept by
`main`, followed by theorems about them.

Conventions of the embedding

* `uint16_t` / `uint8_t` values are natural numbers; an increment of a `uint16_t` is written
  with an explicit `% 65536`.  The `int` counters are integers (signed overflow is undefined
  in C and is not modelled).
* The global array `frame` is a function from offsets to bytes.  A store is a function update,
  whatever the offset.
* Two observation traces are kept next to the C globals: `stores` records every store into
  `frame` (offset, byte) in program order, and `sink` records every `write(1, frame, n)` call,
  as the list of the `n` bytes handed to it.
* Diagnostics printed on `stderr` are not modelled.
-/

namespace Capture

/-- The `enum tv_standards` of the source. -/
inductive tv_standards where
  | PAL
  | NTSC
deriving DecidableEq

/-- The `enum sync_state` of the source. -/
inductive sync_state where
  | HSYNC
  | SYNCZ1
  | SYNCZ2
  | SYNCAV
deriving DecidableEq

/-- The `struct video_state_t` of the source: `line`, `col` are `uint16_t`, `field`, `blank`
are `uint8_t`. -/
structure video_state_t where
  line : Nat
  col : Nat
  state : sync_state
  field : Nat
  blank : Nat
deriving DecidableEq

/-- The options read by the pipeline: `frame_count` (`-1` = unlimited) and `tv_standard`. -/
structure options_t where
  frame_count : Int
  tv_standard : tv_standards
deriving DecidableEq

/-- The mutable globals of the source (`vs`, `frame`, `frames_generated`,
`stop_sending_requests`, `pending_requests`) and the two observation traces. -/
structure globals_t where
  vs : video_state_t
  frame : Nat → Nat
  frames_generated : Int
  stop_sending_requests : Int
  pending_requests : Int
  stores : List (Nat × Nat)
  sink : List (List Nat)

/-- The static initialiser of `vs`. -/
def vs_init : video_state_t :=
  { line := 0, col := 0, state := sync_state.HSYNC, field := 0, blank := 0 }

/-- The globals at program start: `vs` zeroed, `frame` zeroed, counters zero. -/
def globals_init : globals_t :=
  { vs := vs_init
    frame := fun _ => 0
    frames_generated := 0
    stop_sending_requests := 0
    pending_requests := 0
    stores := []
    sink := [] }

/-- The source's `put_data`: store `c` at `(2 * line + field) * (720 * 2) + col`, the offset
being computed before `col` is incremented and clamped. -/
def put_data (g : globals_t) (c : Nat) : globals_t :=
  let line_pos := (2 * g.vs.line + g.vs.field) * (720 * 2) + g.vs.col
  let col1 := (g.vs.col + 1) % 65536
  let col2 := if col1 > 720 * 2 then 720 * 2 else col1
  { g with
    vs := { g.vs with col := col2 }
    frame := fun i => if i = line_pos then c else g.frame i
    stores := g.stores ++ [(line_pos, c)] }

/-- The `lines_per_field` local of `process`. -/
def lines_per_field (o : options_t) : Nat :=
  if o.tv_standard = tv_standards.PAL then 288 else 240

/-- The bytes handed to `write(1, frame, n)`. -/
def frame_bytes (frame : Nat → Nat) (n : Nat) : List Nat :=
  (List.range n).map frame

/-- The SAV branch of `process` (the `else` of `if (c & 0x10)`), entered with `vs->state`
already set to `HSYNC`. -/
def process_sav (o : options_t) (g : globals_t) (c : Nat) : globals_t :=
  let field_old := g.vs.field
  let blank_old := g.vs.blank
  let field_new := if c &&& 0x40 ≠ 0 then 1 else 0
  let blank_new := if c &&& 0x20 ≠ 0 then 1 else 0
  let field_edge := field_new ^^^ field_old
  let blank_edge := blank_new ^^^ blank_old
  let g1 : globals_t := { g with vs := { g.vs with field := field_new, blank := blank_new } }
  let g2 : globals_t :=
    if field_new = 0 ∧ field_edge ≠ 0 then
      let g1a : globals_t :=
        if g1.frames_generated < o.frame_count ∨ o.frame_count = -1 then
          { g1 with
            sink := g1.sink ++ [frame_bytes g1.frame (720 * 2 * lines_per_field o * 2)]
            frames_generated := g1.frames_generated + 1 }
        else g1
      if g1a.frames_generated ≥ o.frame_count ∧ o.frame_count ≠ -1 then
        { g1a with stop_sending_requests := 1 }
      else g1a
    else g1
  if blank_new = 0 ∧ blank_edge ≠ 0 then
    { g2 with vs := { g2.vs with line := 0, col := 0 } }
  else g2

/-- The source's `process`: one step of the sync decoder on the input byte `c`. -/
def process (o : options_t) (g : globals_t) (c : Nat) : globals_t :=
  match g.vs.state with
  | sync_state.HSYNC =>
    if c = 0xff then
      { g with vs := { g.vs with state := sync_state.SYNCZ1 } }
    else
      put_data g c
  | sync_state.SYNCZ1 =>
    if c = 0x00 then
      { g with vs := { g.vs with state := sync_state.SYNCZ2 } }
    else
      let g0 : globals_t := { g with vs := { g.vs with state := sync_state.HSYNC } }
      put_data (put_data g0 0xff) c
  | sync_state.SYNCZ2 =>
    if c = 0x00 then
      { g with vs := { g.vs with state := sync_state.SYNCAV } }
    else
      let g0 : globals_t := { g with vs := { g.vs with state := sync_state.HSYNC } }
      put_data (put_data (put_data g0 0xff) 0x00) c
  | sync_state.SYNCAV =>
    let g0 : globals_t := { g with vs := { g.vs with state := sync_state.HSYNC } }
    if c = 0x00 then
      g0
    else if c &&& 0x10 ≠ 0 then
      if g0.vs.blank = 0 then
        let line1 := (g0.vs.line + 1) % 65536
        let line2 := if line1 > 625 then 625 else line1
        { g0 with vs := { g0.vs with line := line2, col := 0 } }
      else g0
    else
      process_sav o g0 c

/-- Feeding a byte sequence to `process`, one byte after the other. -/
def feed (o : options_t) (g : globals_t) (bs : List Nat) : globals_t :=
  bs.foldl (process o) g

/-- The `for (k = 0; k < 0x400 - 4; k++) process(&vs, data[k + 4 + pos]);` loop of
`gotdata`. -/
def gotdata_block (o : options_t) (data : Nat → Nat) (pos : Nat) (g : globals_t) :
    globals_t :=
  (List.range (0x400 - 4)).foldl (fun g k => process o g (data (k + 4 + pos))) g

/-- The `while (pos < length)` loop of `gotdata` over one packet buffer `data` with actual
length `length`, started at `pos`. -/
def gotdata_blocks (o : options_t) (data : Nat → Nat) (length : Nat) (pos : Nat)
    (g : globals_t) : globals_t :=
  if pos < length then
    let g1 :=
      if data pos = 0xaa ∧ data (pos + 1) = 0xaa ∧ data (pos + 2) = 0x00 ∧
          data (pos + 3) = 0x00 then
        gotdata_block o data pos g
      else g
    gotdata_blocks o data length (pos + 0x400) g1
  else g
termination_by length - pos
decreasing_by omega

/-- The write offset used by `put_data` in the state `vs`. -/
def line_pos (vs : video_state_t) : Nat :=
  (2 * vs.line + vs.field) * (720 * 2) + vs.col

/-- The decoder state with `state` replaced, as after `vs->state++` or `vs->state = HSYNC`. -/
def with_state (g : globals_t) (st : sync_state) : globals_t :=
  { g with vs := { g.vs with state := st } }

/-- The relation between the sink trace, the frame counter and the stop flag under a finite
frame limit: as many frames were written as counted, and the stop flag is set exactly when
the count has reached the limit. -/
def limit_inv (o : options_t) (g : globals_t) : Prop :=
  (g.sink.length : Int) = g.frames_generated ∧
  ((g.frames_generated < o.frame_count ∧ g.stop_sending_requests = 0) ∨
   (g.frames_generated = o.frame_count ∧ g.stop_sending_requests = 1))

/-- Specification side of the block demultiplexer: the bytes a packet buffer of `n` strides of
1024 bytes forwards to the decoder, namely for each stride in order the bytes at offsets
4..1023 of the stride when its first four bytes are `AA AA 00 00`, and nothing otherwise. -/
def spec_payload (data : Nat → Nat) (n : Nat) : List Nat :=
  (List.range n).flatMap fun j =>
    if data (1024 * j) = 0xaa ∧ data (1024 * j + 1) = 0xaa ∧ data (1024 * j + 2) = 0x00 ∧
        data (1024 * j + 3) = 0x00 then
      (List.range 1020).map fun k => data (1024 * j + 4 + k)
    else []

/-- The byte stream of one field: an SAV code with control byte `c1`, then for each of the
`n` lines its 1440 pixel bytes `lines l 0 .. lines l 1439` followed by an EAV code with control
byte `eav l`, then an SAV code with control byte `c2`. -/
def field_stream (c1 : Nat) (lines : Nat → Nat → Nat) (eav : Nat → Nat) (n : Nat) (c2 : Nat) :
    List Nat :=
  [0xff, 0x00, 0x00, c1] ++
    ((List.range n).flatMap fun l =>
      (List.range 1440).map (lines l) ++ [0xff, 0x00, 0x00, eav l]) ++
    [0xff, 0x00, 0x00, c2]

/-- The size of the global array `frame`: `720 * 2 * 627 * 2` bytes. -/
def frame_size : Nat := 720 * 2 * 627 * 2

/-- The bounds under which every store of `put_data` stays inside `frame`: the two clamps,
`field` a bit, and every store made so far below `frame_size`. -/
def store_inv (g : globals_t) : Prop :=
  g.vs.col ≤ 1440 ∧ g.vs.line ≤ 625 ∧ g.vs.field ≤ 1 ∧ ∀ p ∈ g.stores, p.1 < frame_size

/-- One isochronous packet of a completed transfer: the buffer returned by
`libusb_get_iso_packet_buffer_simple` and the `actual_length` of its descriptor. -/
structure iso_packet_t where
  data : Nat → Nat
  actual_length : Nat

/-- The `for (i = 0; i < num; i++)` loop of `gotdata` over the packets of the transfer. -/
def gotdata_packets (o : options_t) (tfr : List iso_packet_t) (g : globals_t) : globals_t :=
  tfr.foldl (fun g p => gotdata_blocks o p.data p.actual_length 0 g) g

/-- What a call of `gotdata` leaves behind: the globals, and whether the transfer was handed
back to `libusb_submit_transfer`. -/
structure gotdata_result_t where
  g : globals_t
  resubmitted : Bool

/-- The source's `gotdata` on a completed transfer with packets `tfr`.  `submit_ret` is the
value `libusb_submit_transfer` returns if it is called; a non-zero value leads to `exit(1)`,
which is the result `none`. -/
def gotdata (o : options_t) (tfr : List iso_packet_t) (submit_ret : Int) (g : globals_t) :
    Option gotdata_result_t :=
  let g1 : globals_t := { g with pending_requests := g.pending_requests - 1 }
  let g2 := gotdata_packets o tfr g1
  if g2.stop_sending_requests = 0 then
    if submit_ret ≠ 0 then
      none
    else
      some ⟨{ g2 with pending_requests := g2.pending_requests + 1 }, true⟩
  else
    some ⟨g2, false⟩

/-- The constant `NUM_ISO_TRANSFERS` of the source. -/
def NUM_ISO_TRANSFERS : Int := 4

/-- The submission step of `main`: `pending_requests = NUM_ISO_TRANSFERS`, every slot being
submitted successfully. -/
def main_submit (g : globals_t) : globals_t :=
  { g with pending_requests := NUM_ISO_TRANSFERS }

/-- A completion event: the packets of the completed transfer and the value a resubmission
would return. -/
structure completion_t where
  tfr : List iso_packet_t
  submit_ret : Int

/-- A capture run after submission: the completions are handled by `gotdata` one at a time, in
order.  A completion belongs to a transfer in flight, so none is delivered once
`pending_requests` is no longer positive (result `none`, as for `exit(1)`).  The result is the
final globals and the number of resubmissions made on the way. -/
def capture_run (o : options_t) : globals_t → List completion_t → Option (globals_t × Nat)
  | g, [] => some (g, 0)
  | g, c :: cs =>
    if g.pending_requests > 0 then
      match gotdata o c.tfr c.submit_ret g with
      | none => none
      | some r =>
        match capture_run o r.g cs with
        | none => none
        | some (g1, n) => some (g1, n + (if r.resubmitted then 1 else 0))
    else none

/-- The number of preamble bytes held back by the decoder in a given sync state. -/
def pending_preamble : sync_state → Nat
  | sync_state.HSYNC => 0
  | sync_state.SYNCZ1 => 1
  | sync_state.SYNCZ2 => 2
  | sync_state.SYNCAV => 3

/-- The number of bytes of the stream `bs` that `process` consumes in state `SYNCAV` (as
control bytes) when the stream is fed from `g`. -/
def control_bytes (o : options_t) : globals_t → List Nat → Nat
  | _, [] => 0
  | g, b :: bs =>
    (if g.vs.state = sync_state.SYNCAV then 1 else 0) + control_bytes o (process o g b) bs

/-! ## Basic facts about `put_data` and `feed` -/

theorem put_data_state (g : globals_t) (c : Nat) : (put_data g c).vs.state = g.vs.state := rfl

theorem put_data_line (g : globals_t) (c : Nat) : (put_data g c).vs.line = g.vs.line := rfl

theorem put_data_field (g : globals_t) (c : Nat) : (put_data g c).vs.field = g.vs.field := rfl

theorem put_data_blank (g : globals_t) (c : Nat) : (put_data g c).vs.blank = g.vs.blank := rfl

theorem put_data_frame (g : globals_t) (c i : Nat) :
    (put_data g c).frame i = if i = line_pos g.vs then c else g.frame i := rfl

theorem put_data_stores (g : globals_t) (c : Nat) :
    (put_data g c).stores = g.stores ++ [(line_pos g.vs, c)] := rfl

theorem put_data_sink (g : globals_t) (c : Nat) : (put_data g c).sink = g.sink := rfl

theorem put_data_frames_generated (g : globals_t) (c : Nat) :
    (put_data g c).frames_generated = g.frames_generated := rfl

theorem put_data_stop (g : globals_t) (c : Nat) :
    (put_data g c).stop_sending_requests = g.stop_sending_requests := rfl

theorem put_data_pending (g : globals_t) (c : Nat) :
    (put_data g c).pending_requests = g.pending_requests := rfl

/-- After `put_data` the column never exceeds the clamp, whatever it was before. -/
theorem put_data_col_le (g : globals_t) (c : Nat) : (put_data g c).vs.col ≤ 1440 := by
  show (if (g.vs.col + 1) % 65536 > 720 * 2 then 720 * 2 else (g.vs.col + 1) % 65536) ≤ 1440
  split <;> omega

/-- From a column within the clamp, `put_data` advances the column by one, clamped. -/
theorem put_data_col (g : globals_t) (c : Nat) (h : g.vs.col ≤ 1440) :
    (put_data g c).vs.col = min (g.vs.col + 1) 1440 := by
  show (if (g.vs.col + 1) % 65536 > 720 * 2 then 720 * 2 else (g.vs.col + 1) % 65536) = _
  have h1 : (g.vs.col + 1) % 65536 = g.vs.col + 1 := Nat.mod_eq_of_lt (by omega)
  rw [h1]
  split <;> omega

theorem feed_nil (o : options_t) (g : globals_t) : feed o g [] = g := rfl

theorem feed_cons (o : options_t) (g : globals_t) (b : Nat) (bs : List Nat) :
    feed o g (b :: bs) = feed o (process o g b) bs := rfl

theorem feed_append (o : options_t) (g : globals_t) (as bs : List Nat) :
    feed o g (as ++ bs) = feed o (feed o g as) bs := by
  simp [feed, List.foldl_append]

/-- In `HSYNC` a byte other than `0xff` is handed to `put_data`. -/
theorem process_hsync_data (o : options_t) (g : globals_t) (c : Nat)
    (hs : g.vs.state = sync_state.HSYNC) (hc : c ≠ 0xff) : process o g c = put_data g c := by
  simp [process, hs, hc]

/-- Pixel run from `HSYNC`: the state after feeding bytes none of which is `0xff`, with the
part of the frame below the first write offset left alone. -/
theorem feed_pixels (o : options_t) (bs : List Nat) : ∀ (g : globals_t),
    g.vs.state = sync_state.HSYNC → g.vs.col ≤ 1440 → (∀ b ∈ bs, b ≠ 0xff) →
    (feed o g bs).vs.state = sync_state.HSYNC ∧
    (feed o g bs).vs.line = g.vs.line ∧
    (feed o g bs).vs.field = g.vs.field ∧
    (feed o g bs).vs.blank = g.vs.blank ∧
    (feed o g bs).vs.col = min (g.vs.col + bs.length) 1440 ∧
    (feed o g bs).sink = g.sink ∧
    (feed o g bs).frames_generated = g.frames_generated ∧
    (feed o g bs).stop_sending_requests = g.stop_sending_requests ∧
    (feed o g bs).pending_requests = g.pending_requests ∧
    (∀ j, (j < line_pos g.vs ∨ line_pos g.vs - g.vs.col + 1440 < j) →
      (feed o g bs).frame j = g.frame j) ∧
    (∀ i (hi : i < bs.length), g.vs.col + i < 1440 →
      (feed o g bs).frame (line_pos g.vs + i) = bs[i]) := by
  induction bs with
  | nil =>
    intro g hs hc _
    simp [feed_nil, hs]
    omega
  | cons b bs ih =>
    intro g hs hc hb
    have hb0 : b ≠ 0xff := hb b (List.mem_cons_self _ _)
    have hbs : ∀ x ∈ bs, x ≠ 0xff := fun x hx => hb x (List.mem_cons_of_mem _ hx)
    rw [feed_cons, process_hsync_data o g b hs hb0]
    have hc1 := put_data_col g b hc
    obtain ⟨h1, h2, h3, h4, h5, h6, h7, h8, h9, h10, h11⟩ :=
      ih (put_data g b) (by rw [put_data_state]; exact hs) (put_data_col_le g b) hbs
    have hpos : line_pos (put_data g b).vs = line_pos g.vs - g.vs.col + min (g.vs.col + 1) 1440 := by
      simp only [line_pos, put_data_line, put_data_field, hc1]
      omega
    have hge : g.vs.col ≤ line_pos g.vs := by simp only [line_pos]; omega
    refine ⟨h1, h2, h3, h4, ?_, h6, h7, h8, h9, ?_, ?_⟩
    · rw [h5, hc1, List.length_cons]; omega
    · intro j hj
      rw [h10 j (by rw [hpos, hc1]; omega), put_data_frame, if_neg (by omega)]
    · intro i hi hlt
      cases i with
      | zero =>
        rw [Nat.add_zero, h10 (line_pos g.vs) (by rw [hpos]; omega), put_data_frame, if_pos rfl]
        rfl
      | succ i =>
        have hi1 : i < bs.length := by simpa using hi
        have := h11 i hi1 (by rw [hc1]; omega)
        rw [hpos] at this
        have e : line_pos g.vs - g.vs.col + min (g.vs.col + 1) 1440 + i = line_pos g.vs + (i + 1) := by
          omega
        rw [e] at this
        rw [this]
        rfl

/-- Claim C1. For every sequence of bytes none of which is `0xff`, fed one by one to `process`
from a decoder state in `HSYNC` with `line ≤ 625` and `col = c0 ≤ 1440`: the decoder stays in
`HSYNC`; `line`, `field` and `blank` are unchanged; the final `col` is `min (c0 + n) 1440`; and
for every `i` with `c0 + i < 1440` the frame buffer afterwards holds the `i`-th input byte at
offset `(2 * line + field) * 1440 + c0 + i`. -/
theorem C1_pixel_run (o : options_t) (g : globals_t) (bs : List Nat)
    (hs : g.vs.state = sync_state.HSYNC) (_hl : g.vs.line ≤ 625) (hc : g.vs.col ≤ 1440)
    (hb : ∀ b ∈ bs, b ≠ 0xff) :
    (feed o g bs).vs.state = sync_state.HSYNC ∧
    (feed o g bs).vs.line = g.vs.line ∧
    (feed o g bs).vs.field = g.vs.field ∧
    (feed o g bs).vs.blank = g.vs.blank ∧
    (feed o g bs).vs.col = min (g.vs.col + bs.length) 1440 ∧
    ∀ i (hi : i < bs.length), g.vs.col + i < 1440 →
      (feed o g bs).frame ((2 * g.vs.line + g.vs.field) * 1440 + g.vs.col + i) = bs[i] := by
  obtain ⟨h1, h2, h3, h4, h5, -, -, -, -, -, h11⟩ := feed_pixels o bs g hs hc hb
  exact ⟨h1, h2, h3, h4, h5, fun i hi hlt => h11 i hi hlt⟩

/-- Witness for C1: three pixel bytes fed from the initial state. -/
theorem C1_pixel_run_witness :
    (feed ⟨-1, tv_standards.PAL⟩ globals_init [1, 2, 3]).vs.col = min (0 + 3) 1440 ∧
    (feed ⟨-1, tv_standards.PAL⟩ globals_init [1, 2, 3]).frame 2 = 3 :=
  have h := C1_pixel_run ⟨-1, tv_standards.PAL⟩ globals_init [1, 2, 3] rfl (by decide)
    (by decide) (by decide)
  ⟨h.2.2.2.2.1, h.2.2.2.2.2 2 (by decide) (by decide)⟩

/-! ## The preamble `FF 00 00` and the control byte -/

/-- From `HSYNC` the three bytes `FF 00 00` only move the decoder to `SYNCAV`. -/
theorem feed_preamble (o : options_t) (g : globals_t) (hs : g.vs.state = sync_state.HSYNC) :
    feed o g [0xff, 0x00, 0x00] = with_state g sync_state.SYNCAV := by
  simp [feed, process, hs, with_state]

/-- From `HSYNC` the four bytes `FF 00 00 c` act as `process` on `c` in `SYNCAV`. -/
theorem feed_code (o : options_t) (g : globals_t) (c : Nat)
    (hs : g.vs.state = sync_state.HSYNC) :
    feed o g [0xff, 0x00, 0x00, c] = process o (with_state g sync_state.SYNCAV) c := by
  have h := feed_append o g [0xff, 0x00, 0x00] [c]
  rw [feed_preamble o g hs] at h
  exact h

/-- An EAV control byte (bit 4 set) consumed in `SYNCAV`. -/
theorem process_eav (o : options_t) (g : globals_t) (c : Nat)
    (hs : g.vs.state = sync_state.SYNCAV) (h4 : c &&& 0x10 ≠ 0) :
    process o g c =
      if g.vs.blank = 0 then
        { g with vs := { g.vs with
            state := sync_state.HSYNC
            line := if (g.vs.line + 1) % 65536 > 625 then 625 else (g.vs.line + 1) % 65536
            col := 0 } }
      else with_state g sync_state.HSYNC := by
  have hc : c ≠ 0 := by
    rintro rfl
    simp at h4
  simp only [process, hs, with_state]
  simp [hc, h4]

/-- Claim C2. From a decoder state in `HSYNC` (with `line` in its range `0..625`), feeding
`FF 00 00 c` with bit 4 of `c` set: if `blank = 0` then `line` becomes `line + 1` capped at 625
and `col` becomes 0; if `blank` is set (`1`, or any non-zero value) `line` and `col` are
unchanged.  In both cases the decoder ends in `HSYNC`, `field` and `blank` are unchanged and no
byte of the frame buffer is written. -/
theorem C2_eav (o : options_t) (g : globals_t) (c : Nat)
    (hs : g.vs.state = sync_state.HSYNC) (hl : g.vs.line ≤ 625) (h4 : c &&& 0x10 ≠ 0) :
    (g.vs.blank = 0 →
      (feed o g [0xff, 0x00, 0x00, c]).vs.line = min (g.vs.line + 1) 625 ∧
      (feed o g [0xff, 0x00, 0x00, c]).vs.col = 0) ∧
    (g.vs.blank ≠ 0 →
      (feed o g [0xff, 0x00, 0x00, c]).vs.line = g.vs.line ∧
      (feed o g [0xff, 0x00, 0x00, c]).vs.col = g.vs.col) ∧
    (feed o g [0xff, 0x00, 0x00, c]).vs.state = sync_state.HSYNC ∧
    (feed o g [0xff, 0x00, 0x00, c]).vs.field = g.vs.field ∧
    (feed o g [0xff, 0x00, 0x00, c]).vs.blank = g.vs.blank ∧
    (feed o g [0xff, 0x00, 0x00, c]).frame = g.frame ∧
    (feed o g [0xff, 0x00, 0x00, c]).stores = g.stores := by
  rw [feed_code o g c hs, process_eav o _ c rfl h4]
  have h1 : (g.vs.line + 1) % 65536 = g.vs.line + 1 := Nat.mod_eq_of_lt (by omega)
  by_cases hb : g.vs.blank = 0
  · rw [if_pos (show (with_state g sync_state.SYNCAV).vs.blank = 0 from hb)]
    refine ⟨fun _ => ⟨?_, rfl⟩, fun h => absurd hb h, rfl, rfl, rfl, rfl, rfl⟩
    show (if (g.vs.line + 1) % 65536 > 625 then 625 else (g.vs.line + 1) % 65536) = _
    rw [h1]
    split <;> omega
  · rw [if_neg (show ¬ (with_state g sync_state.SYNCAV).vs.blank = 0 from hb)]
    exact ⟨fun h => absurd h hb, fun _ => ⟨rfl, rfl⟩, rfl, rfl, rfl, rfl, rfl⟩

/-- Witness for C2: the EAV code `FF 00 00 90` fed from the initial state. -/
theorem C2_eav_witness :
    (feed ⟨-1, tv_standards.PAL⟩ globals_init [0xff, 0x00, 0x00, 0x90]).vs.line = 1 ∧
    (feed ⟨-1, tv_standards.PAL⟩ globals_init [0xff, 0x00, 0x00, 0x90]).vs.col = 0 :=
  (C2_eav ⟨-1, tv_standards.PAL⟩ globals_init 0x90 rfl (by decide) (by decide)).1 rfl

/-- A non-zero control byte with bit 4 clear consumed in `SYNCAV` takes the SAV branch. -/
theorem process_sav_eq (o : options_t) (g : globals_t) (c : Nat)
    (hs : g.vs.state = sync_state.SYNCAV) (hc : c ≠ 0) (h4 : c &&& 0x10 = 0) :
    process o g c = process_sav o (with_state g sync_state.HSYNC) c := by
  simp only [process, hs, with_state]
  simp [hc, h4]

/-- The sink trace after the SAV branch: one more write exactly when `field` falls from a
non-zero value to 0 and the frame budget allows it. -/
theorem process_sav_sink (o : options_t) (g : globals_t) (c : Nat) :
    (process_sav o g c).sink =
      if (c &&& 0x40 = 0 ∧ (0 ^^^ g.vs.field) ≠ 0) ∧
          (g.frames_generated < o.frame_count ∨ o.frame_count = -1) then
        g.sink ++ [frame_bytes g.frame (720 * 2 * lines_per_field o * 2)]
      else g.sink := by
  unfold process_sav
  by_cases h6 : c &&& 0x40 = 0 <;> by_cases he : (0 ^^^ g.vs.field) ≠ 0 <;>
    by_cases hb : (g.frames_generated < o.frame_count ∨ o.frame_count = -1) <;>
    simp only [h6, he, hb, ne_eq, not_true_eq_false, not_false_eq_true, if_true, if_false,
      and_self, and_true, and_false, true_and, false_and, one_ne_zero] <;>
    (repeat' split) <;> rfl

/-- The frame counter after the SAV branch. -/
theorem process_sav_frames_generated (o : options_t) (g : globals_t) (c : Nat) :
    (process_sav o g c).frames_generated =
      if (c &&& 0x40 = 0 ∧ (0 ^^^ g.vs.field) ≠ 0) ∧
          (g.frames_generated < o.frame_count ∨ o.frame_count = -1) then
        g.frames_generated + 1
      else g.frames_generated := by
  unfold process_sav
  by_cases h6 : c &&& 0x40 = 0 <;> by_cases he : (0 ^^^ g.vs.field) ≠ 0 <;>
    by_cases hb : (g.frames_generated < o.frame_count ∨ o.frame_count = -1) <;>
    simp only [h6, he, hb, ne_eq, not_true_eq_false, not_false_eq_true, if_true, if_false,
      and_self, and_true, and_false, true_and, false_and, one_ne_zero] <;>
    (repeat' split) <;> rfl

/-- The stop flag after the SAV branch: set when `field` falls to 0 and the counter, after the
possible increment, has reached a finite limit. -/
theorem process_sav_stop (o : options_t) (g : globals_t) (c : Nat) :
    (process_sav o g c).stop_sending_requests =
      if (c &&& 0x40 = 0 ∧ (0 ^^^ g.vs.field) ≠ 0) ∧
          ((process_sav o g c).frames_generated ≥ o.frame_count ∧ o.frame_count ≠ -1) then
        1
      else g.stop_sending_requests := by
  rw [process_sav_frames_generated]
  unfold process_sav
  by_cases h6 : c &&& 0x40 = 0 <;> by_cases he : (0 ^^^ g.vs.field) ≠ 0 <;>
    by_cases hb : (g.frames_generated < o.frame_count ∨ o.frame_count = -1) <;>
    simp only [h6, he, hb, ne_eq, not_true_eq_false, not_false_eq_true, if_true, if_false,
      and_self, and_true, and_false, true_and, false_and, one_ne_zero] <;>
    (repeat' split) <;> rfl

theorem process_sav_frame (o : options_t) (g : globals_t) (c : Nat) :
    (process_sav o g c).frame = g.frame := by
  simp only [process_sav]
  split_ifs <;> rfl

theorem process_sav_stores (o : options_t) (g : globals_t) (c : Nat) :
    (process_sav o g c).stores = g.stores := by
  simp only [process_sav]
  split_ifs <;> rfl

theorem process_sav_pending (o : options_t) (g : globals_t) (c : Nat) :
    (process_sav o g c).pending_requests = g.pending_requests := by
  simp only [process_sav]
  split_ifs <;> rfl

theorem process_sav_state (o : options_t) (g : globals_t) (c : Nat) :
    (process_sav o g c).vs.state = g.vs.state := by
  simp only [process_sav]
  split_ifs <;> rfl

theorem process_sav_field (o : options_t) (g : globals_t) (c : Nat) :
    (process_sav o g c).vs.field = if c &&& 0x40 ≠ 0 then 1 else 0 := by
  simp only [process_sav]
  split_ifs <;> rfl

theorem process_sav_blank (o : options_t) (g : globals_t) (c : Nat) :
    (process_sav o g c).vs.blank = if c &&& 0x20 ≠ 0 then 1 else 0 := by
  simp only [process_sav]
  split_ifs <;> rfl

/-- The line counter after the SAV branch: reset when `blank` falls to 0. -/
theorem process_sav_line (o : options_t) (g : globals_t) (c : Nat) :
    (process_sav o g c).vs.line =
      if c &&& 0x20 = 0 ∧ (0 ^^^ g.vs.blank) ≠ 0 then 0 else g.vs.line := by
  unfold process_sav
  by_cases h5 : c &&& 0x20 = 0 <;> by_cases he : (0 ^^^ g.vs.blank) ≠ 0 <;>
    simp only [h5, he, ne_eq, not_true_eq_false, not_false_eq_true, if_true, if_false,
      and_self, and_true, and_false, true_and, false_and, one_ne_zero] <;>
    (repeat' split) <;> rfl

/-- The column after the SAV branch: reset when `blank` falls to 0. -/
theorem process_sav_col (o : options_t) (g : globals_t) (c : Nat) :
    (process_sav o g c).vs.col =
      if c &&& 0x20 = 0 ∧ (0 ^^^ g.vs.blank) ≠ 0 then 0 else g.vs.col := by
  unfold process_sav
  by_cases h5 : c &&& 0x20 = 0 <;> by_cases he : (0 ^^^ g.vs.blank) ≠ 0 <;>
    simp only [h5, he, ne_eq, not_true_eq_false, not_false_eq_true, if_true, if_false,
      and_self, and_true, and_false, true_and, false_and, one_ne_zero] <;>
    (repeat' split) <;> rfl

/-- Claim C3. A non-zero control byte `c` with bit 4 clear consumed in `SYNCAV` (an SAV code).
If `field = 1` and bit 6 of `c` is clear, and the frame limit is unbounded (`-1`) or
`frames_generated < frame_count`, then `process` appends exactly one write to the sink, whose
content is the first `720 * 2 * lines_per_field * 2` bytes of the frame buffer (829440 bytes
for PAL, 691200 for NTSC), and `frames_generated` grows by exactly 1.  If the SAV code does not
take `field` (a bit) from 1 to 0, there is no sink write and `frames_generated` and
`stop_sending_requests` are unchanged. -/
theorem C3_frame_emission (o : options_t) (g : globals_t) (c : Nat)
    (hs : g.vs.state = sync_state.SYNCAV) (hc : c ≠ 0) (h4 : c &&& 0x10 = 0) :
    (g.vs.field = 1 → c &&& 0x40 = 0 →
      (o.frame_count = -1 ∨ g.frames_generated < o.frame_count) →
        (process o g c).sink =
          g.sink ++ [(List.range (720 * 2 * lines_per_field o * 2)).map g.frame] ∧
        720 * 2 * lines_per_field o * 2 =
          (if o.tv_standard = tv_standards.PAL then 829440 else 691200) ∧
        ((List.range (720 * 2 * lines_per_field o * 2)).map g.frame).length =
          (if o.tv_standard = tv_standards.PAL then 829440 else 691200) ∧
        (process o g c).frames_generated = g.frames_generated + 1) ∧
    (g.vs.field ≤ 1 → ¬ (g.vs.field = 1 ∧ c &&& 0x40 = 0) →
        (process o g c).sink = g.sink ∧
        (process o g c).frames_generated = g.frames_generated ∧
        (process o g c).stop_sending_requests = g.stop_sending_requests) := by
  rw [process_sav_eq o g c hs hc h4]
  have hsz : 720 * 2 * lines_per_field o * 2 =
      (if o.tv_standard = tv_standards.PAL then 829440 else 691200) := by
    unfold lines_per_field
    split <;> rfl
  constructor
  · intro hf h6 hb
    have hcond : (c &&& 0x40 = 0 ∧ (0 ^^^ (with_state g sync_state.HSYNC).vs.field) ≠ 0) ∧
        ((with_state g sync_state.HSYNC).frames_generated < o.frame_count ∨
          o.frame_count = -1) := by
      refine ⟨⟨h6, ?_⟩, hb.symm⟩
      show (0 ^^^ g.vs.field) ≠ 0
      rw [hf]
      decide
    rw [process_sav_sink, process_sav_frames_generated, if_pos hcond, if_pos hcond]
    refine ⟨rfl, hsz, ?_, rfl⟩
    rw [List.length_map, List.length_range, hsz]
  · intro hf hn
    have hcond : ¬ (c &&& 0x40 = 0 ∧ (0 ^^^ (with_state g sync_state.HSYNC).vs.field) ≠ 0) := by
      rintro ⟨h6, he⟩
      have he2 : (0 ^^^ g.vs.field) ≠ 0 := he
      have hf1 : g.vs.field = 1 := by
        rcases Nat.le_one_iff_eq_zero_or_eq_one.mp hf with h0 | h1
        · rw [h0] at he2
          exact absurd rfl he2
        · exact h1
      exact hn ⟨hf1, h6⟩
    rw [process_sav_sink, process_sav_stop, process_sav_frames_generated,
      if_neg (fun h => hcond h.1), if_neg (fun h => hcond h.1), if_neg (fun h => hcond h.1)]
    exact ⟨rfl, rfl, rfl⟩

/-- Witness for C3, from `SYNCAV` with `field = 1`, PAL and an unbounded frame limit: the SAV
byte `0x80` emits a frame, the SAV byte `0xc0` (which keeps `field = 1`) emits nothing. -/
theorem C3_frame_emission_witness :
    (process ⟨-1, tv_standards.PAL⟩
      { globals_init with vs := ⟨0, 0, sync_state.SYNCAV, 1, 0⟩ } 0x80).frames_generated
      = 0 + 1 ∧
    (process ⟨-1, tv_standards.PAL⟩
      { globals_init with vs := ⟨0, 0, sync_state.SYNCAV, 1, 0⟩ } 0xc0).sink = [] :=
  ⟨((C3_frame_emission ⟨-1, tv_standards.PAL⟩
      { globals_init with vs := ⟨0, 0, sync_state.SYNCAV, 1, 0⟩ } 0x80
      rfl (by decide) (by decide)).1 rfl (by decide) (Or.inl rfl)).2.2.2,
   ((C3_frame_emission ⟨-1, tv_standards.PAL⟩
      { globals_init with vs := ⟨0, 0, sync_state.SYNCAV, 1, 0⟩ } 0xc0
      rfl (by decide) (by decide)).2 (by decide) (by decide)).1⟩

/-! ## The frame limit -/

/-- Every step of `process` either leaves the sink trace, the frame counter and the stop flag
alone, or is the SAV branch. -/
theorem process_counters (o : options_t) (g : globals_t) (c : Nat) :
    ((process o g c).sink = g.sink ∧
      (process o g c).frames_generated = g.frames_generated ∧
      (process o g c).stop_sending_requests = g.stop_sending_requests) ∨
    (g.vs.state = sync_state.SYNCAV ∧ c ≠ 0 ∧ c &&& 0x10 = 0 ∧
      process o g c = process_sav o (with_state g sync_state.HSYNC) c) := by
  cases hs : g.vs.state with
  | HSYNC =>
    left
    simp only [process, hs]
    split <;> exact ⟨rfl, rfl, rfl⟩
  | SYNCZ1 =>
    left
    simp only [process, hs]
    split <;> exact ⟨rfl, rfl, rfl⟩
  | SYNCZ2 =>
    left
    simp only [process, hs]
    split <;> exact ⟨rfl, rfl, rfl⟩
  | SYNCAV =>
    by_cases hc : c = 0
    · left
      simp [process, hs, hc]
    · by_cases h4 : c &&& 0x10 = 0
      · right
        exact ⟨rfl, hc, h4, process_sav_eq o g c hs hc h4⟩
      · left
        rw [process_eav o g c hs h4]
        split <;> exact ⟨rfl, rfl, rfl⟩

/-- Under a finite frame limit, `limit_inv` is preserved by every step of `process`. -/
theorem limit_inv_process (o : options_t) (g : globals_t) (c : Nat)
    (hN : o.frame_count ≠ -1) (h : limit_inv o g) : limit_inv o (process o g c) := by
  rcases process_counters o g c with ⟨h1, h2, h3⟩ | ⟨-, -, -, he⟩
  · unfold limit_inv at *
    rw [h1, h2, h3]
    exact h
  · unfold limit_inv at *
    rw [he, process_sav_stop, process_sav_frames_generated, process_sav_sink]
    obtain ⟨hlen, hcase⟩ := h
    have e1 : (with_state g sync_state.HSYNC).frames_generated = g.frames_generated := rfl
    have e2 : (with_state g sync_state.HSYNC).stop_sending_requests =
        g.stop_sending_requests := rfl
    have e3 : (with_state g sync_state.HSYNC).sink = g.sink := rfl
    have e4 : (with_state g sync_state.HSYNC).frame = g.frame := rfl
    have hlen1 : ((g.sink ++ [frame_bytes g.frame (720 * 2 * lines_per_field o * 2)]).length : Int)
        = (g.sink.length : Int) + 1 := by
      rw [List.length_append, List.length_singleton]
      rfl
    by_cases hE : c &&& 0x40 = 0 ∧ (0 ^^^ (with_state g sync_state.HSYNC).vs.field) ≠ 0
    · by_cases hlt : g.frames_generated < o.frame_count
      · have hEB : (c &&& 0x40 = 0 ∧ (0 ^^^ (with_state g sync_state.HSYNC).vs.field) ≠ 0) ∧
            ((with_state g sync_state.HSYNC).frames_generated < o.frame_count ∨
              o.frame_count = -1) := ⟨hE, Or.inl hlt⟩
        simp only [if_pos hEB]
        by_cases hge : (with_state g sync_state.HSYNC).frames_generated + 1 ≥ o.frame_count
        · simp only [if_pos (And.intro hE (And.intro hge hN))]
          rw [e1] at hge
          rw [e1, e3, e4, hlen1]
          exact ⟨by omega, Or.inr ⟨by omega, trivial⟩⟩
        · simp only [if_neg (fun h : _ ∧ (_ ∧ o.frame_count ≠ -1) => hge h.2.1)]
          rw [e1] at hge
          rw [e1, e2, e3, e4, hlen1]
          exact ⟨by omega, Or.inl ⟨by omega, by omega⟩⟩
      · have hEB : ¬ ((c &&& 0x40 = 0 ∧ (0 ^^^ (with_state g sync_state.HSYNC).vs.field) ≠ 0) ∧
            ((with_state g sync_state.HSYNC).frames_generated < o.frame_count ∨
              o.frame_count = -1)) := by
          rintro ⟨-, h | h⟩
          · exact hlt h
          · exact hN h
        simp only [if_neg hEB]
        have hge : (with_state g sync_state.HSYNC).frames_generated ≥ o.frame_count := by
          rw [e1]; omega
        simp only [if_pos (And.intro hE (And.intro hge hN))]
        rw [e1, e3]
        exact ⟨hlen, Or.inr ⟨by omega, trivial⟩⟩
    · simp only [if_neg (fun h : _ ∧ (_ ∨ _) => hE h.1),
        if_neg (fun h : _ ∧ (_ ∧ o.frame_count ≠ -1) => hE h.1)]
      rw [e1, e2, e3]
      exact ⟨hlen, hcase⟩

/-- Under a finite frame limit, `limit_inv` is preserved by feeding any byte stream. -/
theorem limit_inv_feed (o : options_t) (hN : o.frame_count ≠ -1) (bs : List Nat) :
    ∀ g, limit_inv o g → limit_inv o (feed o g bs) := by
  induction bs with
  | nil => intro g h; exact h
  | cons b bs ih =>
    intro g h
    rw [feed_cons]
    exact ih _ (limit_inv_process o g b hN h)

/-- Claim C4. With a finite frame limit `N = frame_count ≥ 1`, for every byte stream processed
from a session state with `frames_generated = 0`, the stop flag clear and nothing written to
the sink yet: (1) the number of frames written never exceeds `N`, equals `frames_generated`,
and the stop flag is set exactly when it equals `N`; (2) the step of `process` that writes the
`N`-th frame starts with the stop flag clear and ends with it set; (3) in any state with
`frames_generated = N`, an SAV code taking `field` from 1 to 0 writes no frame, leaves
`frames_generated = N` and leaves the stop flag set. -/
theorem C4_frame_limit (o : options_t) (g0 : globals_t) (hN : 1 ≤ o.frame_count)
    (h0 : g0.frames_generated = 0) (hstop : g0.stop_sending_requests = 0)
    (hsink : g0.sink = []) :
    (∀ bs : List Nat,
      ((feed o g0 bs).sink.length : Int) ≤ o.frame_count ∧
      ((feed o g0 bs).sink.length : Int) = (feed o g0 bs).frames_generated ∧
      ((feed o g0 bs).stop_sending_requests ≠ 0 ↔
        ((feed o g0 bs).sink.length : Int) = o.frame_count)) ∧
    (∀ (bs : List Nat) (c : Nat),
      ((feed o g0 bs).sink.length : Int) < o.frame_count →
      ((process o (feed o g0 bs) c).sink.length : Int) = o.frame_count →
        (feed o g0 bs).stop_sending_requests = 0 ∧
        (process o (feed o g0 bs) c).stop_sending_requests = 1) ∧
    (∀ (g : globals_t) (c : Nat),
      g.frames_generated = o.frame_count → g.vs.state = sync_state.SYNCAV →
      g.vs.field = 1 → c ≠ 0 → c &&& 0x10 = 0 → c &&& 0x40 = 0 →
        (process o g c).sink = g.sink ∧
        (process o g c).frames_generated = o.frame_count ∧
        (process o g c).stop_sending_requests = 1) := by
  have hfin : o.frame_count ≠ -1 := by omega
  have hinit : limit_inv o g0 := by
    unfold limit_inv
    rw [hsink, h0, hstop]
    exact ⟨rfl, Or.inl ⟨by omega, rfl⟩⟩
  have hall : ∀ bs : List Nat, limit_inv o (feed o g0 bs) :=
    fun bs => limit_inv_feed o hfin bs g0 hinit
  refine ⟨?_, ?_, ?_⟩
  · intro bs
    obtain ⟨hlen, hcase⟩ := hall bs
    refine ⟨by omega, hlen, ?_⟩
    rcases hcase with ⟨h1, h2⟩ | ⟨h1, h2⟩
    · constructor
      · intro h; exact absurd h2 h
      · intro h; omega
    · constructor
      · intro _; omega
      · intro _; omega
  · intro bs c hlt heq
    obtain ⟨hlen, hcase⟩ := hall bs
    have hstep : limit_inv o (process o (feed o g0 bs) c) :=
      limit_inv_process o _ c hfin (hall bs)
    obtain ⟨hlen1, hcase1⟩ := hstep
    constructor
    · rcases hcase with ⟨_, h2⟩ | ⟨h1, _⟩
      · exact h2
      · omega
    · rcases hcase1 with ⟨h1, _⟩ | ⟨_, h2⟩
      · omega
      · exact h2
  · intro g c hfg hs hf hc h4 h6
    rw [process_sav_eq o g c hs hc h4, process_sav_stop, process_sav_frames_generated,
      process_sav_sink]
    have hE : c &&& 0x40 = 0 ∧ (0 ^^^ (with_state g sync_state.HSYNC).vs.field) ≠ 0 := by
      refine ⟨h6, ?_⟩
      show (0 ^^^ g.vs.field) ≠ 0
      rw [hf]
      decide
    have e1 : (with_state g sync_state.HSYNC).frames_generated = o.frame_count := hfg
    have hnb : ¬ ((c &&& 0x40 = 0 ∧ (0 ^^^ (with_state g sync_state.HSYNC).vs.field) ≠ 0) ∧
        ((with_state g sync_state.HSYNC).frames_generated < o.frame_count ∨
          o.frame_count = -1)) := by
      rintro ⟨-, h | h⟩
      · omega
      · exact hfin h
    have hge : (with_state g sync_state.HSYNC).frames_generated ≥ o.frame_count := by omega
    simp only [if_neg hnb]
    simp only [if_pos (And.intro hE (And.intro hge hfin))]
    exact ⟨rfl, hfg, trivial⟩

/-- Witness for C4: frame limit 1 from the initial state; after the stream
`FF 00 00 C0 FF 00 00 80` (field raised, then lowered) one frame is written and the stop flag
is set. -/
theorem C4_frame_limit_witness :
    (((feed ⟨1, tv_standards.PAL⟩ globals_init
        [0xff, 0, 0, 0xc0, 0xff, 0, 0, 0x80]).sink.length : Int) ≤ 1) ∧
    (process ⟨1, tv_standards.PAL⟩
      { globals_init with frames_generated := 1, vs := ⟨0, 0, sync_state.SYNCAV, 1, 0⟩ }
        0x80).stop_sending_requests = 1 :=
  have h := C4_frame_limit ⟨1, tv_standards.PAL⟩ globals_init (by decide) rfl rfl rfl
  ⟨(h.1 [0xff, 0, 0, 0xc0, 0xff, 0, 0, 0x80]).1,
   (h.2.2 { globals_init with frames_generated := 1, vs := ⟨0, 0, sync_state.SYNCAV, 1, 0⟩ }
      0x80 rfl rfl rfl (by decide) (by decide) (by decide)).2.2⟩

/-! ## The block loop of `gotdata` -/

/-- The inner `for` loop feeds the 1020 bytes that follow the marker. -/
theorem gotdata_block_eq_feed (o : options_t) (data : Nat → Nat) (pos : Nat) (g : globals_t) :
    gotdata_block o data pos g = feed o g ((List.range 1020).map fun k => data (pos + 4 + k)) := by
  unfold gotdata_block feed
  rw [List.foldl_map]
  have e : (fun (g : globals_t) (k : Nat) => process o g (data (k + 4 + pos))) =
      (fun (g : globals_t) (k : Nat) => process o g (data (pos + 4 + k))) := by
    funext g k
    congr 2
    omega
  rw [e]

/-- One iteration of the `while` loop. -/
theorem gotdata_blocks_step (o : options_t) (data : Nat → Nat) (length pos : Nat)
    (g : globals_t) (h : pos < length) :
    gotdata_blocks o data length pos g =
      gotdata_blocks o data length (pos + 0x400)
        (if data pos = 0xaa ∧ data (pos + 1) = 0xaa ∧ data (pos + 2) = 0x00 ∧
            data (pos + 3) = 0x00 then gotdata_block o data pos g else g) := by
  rw [gotdata_blocks, if_pos h]

/-- The `while` loop stops as soon as `pos` has reached `length`. -/
theorem gotdata_blocks_done (o : options_t) (data : Nat → Nat) (length pos : Nat)
    (g : globals_t) (h : ¬ pos < length) : gotdata_blocks o data length pos g = g := by
  rw [gotdata_blocks, if_neg h]

/-- The payload of the strides `j, j + 1, ..., j + m - 1`. -/
theorem gotdata_blocks_strides (o : options_t) (data : Nat → Nat) (m : Nat) :
    ∀ (j : Nat) (g : globals_t),
      gotdata_blocks o data (1024 * (j + m)) (1024 * j) g =
        feed o g ((List.range' j m).flatMap fun j =>
          if data (1024 * j) = 0xaa ∧ data (1024 * j + 1) = 0xaa ∧ data (1024 * j + 2) = 0x00 ∧
              data (1024 * j + 3) = 0x00 then
            (List.range 1020).map fun k => data (1024 * j + 4 + k)
          else []) := by
  induction m with
  | zero =>
    intro j g
    rw [gotdata_blocks_done o data _ _ g (by omega)]
    rfl
  | succ m ih =>
    intro j g
    rw [gotdata_blocks_step o data _ _ g (by omega), List.range'_succ, List.flatMap_cons,
      feed_append]
    have e1 : 1024 * j + 0x400 = 1024 * (j + 1) := by omega
    have e2 : 1024 * (j + (m + 1)) = 1024 * (j + 1 + m) := by omega
    rw [e1, e2, ih (j + 1)]
    congr 1
    split
    · exact gotdata_block_eq_feed o data _ g
    · rfl

/-- Claim C5. For a packet buffer whose length is a multiple of 1024, the block loop of
`gotdata` leaves the globals (decoder state, frame buffer, counters, traces) equal to those
obtained by feeding `process`, in order, the bytes at offsets 4..1023 of each 1024-byte stride
whose first four bytes are `AA AA 00 00`.  A stride without the marker forwards nothing and
the loop goes on with the next stride.  In particular, for a 2048-byte buffer whose first
stride has the marker and whose second stride lacks it, the effect is that of feeding the 1020
payload bytes of the first stride. -/
theorem C5_block_demux (o : options_t) (data : Nat → Nat) (length : Nat) (g : globals_t)
    (hlen : length % 1024 = 0) :
    gotdata_blocks o data length 0 g = feed o g (spec_payload data (length / 1024)) ∧
    (∀ (pos : Nat) (g1 : globals_t), pos < length →
      ¬ (data pos = 0xaa ∧ data (pos + 1) = 0xaa ∧ data (pos + 2) = 0x00 ∧
          data (pos + 3) = 0x00) →
        gotdata_blocks o data length pos g1 =
          gotdata_blocks o data length (pos + 1024) g1) ∧
    (length = 2048 →
      (data 0 = 0xaa ∧ data 1 = 0xaa ∧ data 2 = 0x00 ∧ data 3 = 0x00) →
      ¬ (data 1024 = 0xaa ∧ data 1025 = 0xaa ∧ data 1026 = 0x00 ∧ data 1027 = 0x00) →
        gotdata_blocks o data length 0 g =
          feed o g ((List.range 1020).map fun k => data (4 + k))) := by
  have hmain : gotdata_blocks o data length 0 g =
      feed o g (spec_payload data (length / 1024)) := by
    have h := gotdata_blocks_strides o data (length / 1024) 0 g
    have e : 1024 * (0 + length / 1024) = length := by omega
    rw [e] at h
    rw [h, spec_payload, ← List.range_eq_range']
  refine ⟨hmain, ?_, ?_⟩
  · intro pos g1 hpos hm
    rw [gotdata_blocks_step o data length pos g1 hpos, if_neg hm]
  · intro h2 hm0 hm1
    rw [hmain, h2]
    have e : spec_payload data (2048 / 1024) = (List.range 1020).map fun k => data (4 + k) := by
      have r2 : List.range (2048 / 1024) = [0, 1] := by decide
      rw [spec_payload, r2, List.flatMap_cons, List.flatMap_cons, List.flatMap_nil,
        List.append_nil]
      rw [if_pos hm0, if_neg hm1, List.append_nil]
    rw [e]

/-- Witness for C5: a 2048-byte buffer holding `AA AA 00 00` followed by zeros, so that only
its first stride carries the marker. -/
theorem C5_block_demux_witness :
    gotdata_blocks ⟨-1, tv_standards.PAL⟩ (fun i => if i < 2 then 0xaa else 0) 2048 0
        globals_init =
      feed ⟨-1, tv_standards.PAL⟩ globals_init
        ((List.range 1020).map fun k => (fun i => if i < 2 then 0xaa else 0) (4 + k)) :=
  (C5_block_demux ⟨-1, tv_standards.PAL⟩ (fun i => if i < 2 then 0xaa else 0) 2048
    globals_init (by decide)).2.2 rfl (by decide) (by decide)

/-! ## One field, line by line -/

/-- The EAV code `FF 00 00 e` fed from `HSYNC` outside blanking, below the line clamp. -/
theorem feed_eav_active (o : options_t) (g : globals_t) (e : Nat)
    (hs : g.vs.state = sync_state.HSYNC) (hbl : g.vs.blank = 0) (hl : g.vs.line < 625)
    (he : e &&& 0x10 ≠ 0) :
    feed o g [0xff, 0x00, 0x00, e] =
      { g with vs := { g.vs with line := g.vs.line + 1, col := 0 } } := by
  rw [feed_code o g e hs, process_eav o _ e rfl he,
    if_pos (show (with_state g sync_state.SYNCAV).vs.blank = 0 from hbl)]
  have h1 : ((with_state g sync_state.SYNCAV).vs.line + 1) % 65536 = g.vs.line + 1 :=
    Nat.mod_eq_of_lt (show g.vs.line + 1 < 65536 by omega)
  rw [h1, if_neg (show ¬ g.vs.line + 1 > 625 by omega)]
  simp only [with_state]
  rw [← hs]

/-- One full line: 1440 pixel bytes and an EAV code, fed from `HSYNC` at column 0 outside
blanking. The line lands in its row of the frame buffer, lower offsets are left alone, and the
decoder moves to column 0 of the next line. -/
theorem feed_line (o : options_t) (g : globals_t) (bs : List Nat) (e : Nat)
    (hs : g.vs.state = sync_state.HSYNC) (hcol : g.vs.col = 0) (hbl : g.vs.blank = 0)
    (hl : g.vs.line < 625) (hlen : bs.length = 1440) (hb : ∀ b ∈ bs, b ≠ 0xff)
    (he : e &&& 0x10 ≠ 0) :
    (feed o g (bs ++ [0xff, 0x00, 0x00, e])).vs.state = sync_state.HSYNC ∧
    (feed o g (bs ++ [0xff, 0x00, 0x00, e])).vs.line = g.vs.line + 1 ∧
    (feed o g (bs ++ [0xff, 0x00, 0x00, e])).vs.col = 0 ∧
    (feed o g (bs ++ [0xff, 0x00, 0x00, e])).vs.field = g.vs.field ∧
    (feed o g (bs ++ [0xff, 0x00, 0x00, e])).vs.blank = 0 ∧
    (feed o g (bs ++ [0xff, 0x00, 0x00, e])).sink = g.sink ∧
    (feed o g (bs ++ [0xff, 0x00, 0x00, e])).frames_generated = g.frames_generated ∧
    (∀ j, j < (2 * g.vs.line + g.vs.field) * 1440 →
      (feed o g (bs ++ [0xff, 0x00, 0x00, e])).frame j = g.frame j) ∧
    (∀ i (hi : i < bs.length),
      (feed o g (bs ++ [0xff, 0x00, 0x00, e])).frame
        ((2 * g.vs.line + g.vs.field) * 1440 + i) = bs[i]) := by
  obtain ⟨p1, p2, p3, p4, -, p6, p7, -, -, p10, p11⟩ :=
    feed_pixels o bs g hs (by omega) hb
  rw [feed_append, feed_eav_active o (feed o g bs) e p1 (by rw [p4, hbl]) (by rw [p2]; exact hl) he]
  have hpos : line_pos g.vs = (2 * g.vs.line + g.vs.field) * 1440 := by
    simp only [line_pos, hcol]
    omega
  refine ⟨p1, ?_, rfl, p3, ?_, p6, p7, ?_, ?_⟩
  · show (feed o g bs).vs.line + 1 = _
    rw [p2]
  · show (feed o g bs).vs.blank = 0
    rw [p4, hbl]
  · intro j hj
    show (feed o g bs).frame j = _
    exact p10 j (Or.inl (by rw [hpos]; exact hj))
  · intro i hi
    show (feed o g bs).frame _ = _
    rw [← hpos]
    exact p11 i hi (by omega)

/-- The first `n` lines of a field, fed from `HSYNC` at line 0, column 0, outside blanking:
line `l` lands in row `2 * l + field` of the frame buffer. -/
theorem feed_lines (o : options_t) (g : globals_t) (lines : Nat → Nat → Nat) (eav : Nat → Nat)
    (N : Nat) (hs : g.vs.state = sync_state.HSYNC) (hline : g.vs.line = 0)
    (hcol : g.vs.col = 0) (hbl : g.vs.blank = 0)
    (hpix : ∀ l, l < N → ∀ k, k < 1440 → lines l k ≠ 0xff)
    (heav : ∀ l, l < N → eav l &&& 0x10 ≠ 0) :
    ∀ n, n ≤ N → n ≤ 625 →
      (feed o g ((List.range n).flatMap fun l =>
        (List.range 1440).map (lines l) ++ [0xff, 0x00, 0x00, eav l])).vs.state
          = sync_state.HSYNC ∧
      (feed o g ((List.range n).flatMap fun l =>
        (List.range 1440).map (lines l) ++ [0xff, 0x00, 0x00, eav l])).vs.line = n ∧
      (feed o g ((List.range n).flatMap fun l =>
        (List.range 1440).map (lines l) ++ [0xff, 0x00, 0x00, eav l])).vs.col = 0 ∧
      (feed o g ((List.range n).flatMap fun l =>
        (List.range 1440).map (lines l) ++ [0xff, 0x00, 0x00, eav l])).vs.field = g.vs.field ∧
      (feed o g ((List.range n).flatMap fun l =>
        (List.range 1440).map (lines l) ++ [0xff, 0x00, 0x00, eav l])).vs.blank = 0 ∧
      (feed o g ((List.range n).flatMap fun l =>
        (List.range 1440).map (lines l) ++ [0xff, 0x00, 0x00, eav l])).sink = g.sink ∧
      (feed o g ((List.range n).flatMap fun l =>
        (List.range 1440).map (lines l) ++ [0xff, 0x00, 0x00, eav l])).frames_generated
          = g.frames_generated ∧
      (∀ l, l < n → ∀ k, k < 1440 →
        (feed o g ((List.range n).flatMap fun l =>
          (List.range 1440).map (lines l) ++ [0xff, 0x00, 0x00, eav l])).frame
            ((2 * l + g.vs.field) * 1440 + k) = lines l k) := by
  intro n
  induction n with
  | zero =>
    intro _ _
    refine ⟨hs, hline, hcol, rfl, hbl, rfl, rfl, ?_⟩
    intro l hl
    omega
  | succ n ih =>
    intro hn hn625
    obtain ⟨q1, q2, q3, q4, q5, q6, q7, q8⟩ := ih (by omega) (by omega)
    rw [List.range_succ, List.flatMap_append, List.flatMap_singleton, feed_append]
    have hbs : ∀ b ∈ (List.range 1440).map (lines n), b ≠ 0xff := by
      intro b hb
      obtain ⟨k, hk, rfl⟩ := List.mem_map.mp hb
      exact hpix n (by omega) k (List.mem_range.mp hk)
    have hlen : ((List.range 1440).map (lines n)).length = 1440 := by
      rw [List.length_map, List.length_range]
    obtain ⟨r1, r2, r3, r4, r5, r6, r7, r8, r9⟩ :=
      feed_line o _ ((List.range 1440).map (lines n)) (eav n) q1 q3 q5 (by rw [q2]; omega) hlen
        hbs (heav n (by omega))
    refine ⟨r1, by rw [r2, q2], r3, by rw [r4, q4], r5, by rw [r6, q6], by rw [r7, q7], ?_⟩
    intro l hl k hk
    rw [q2, q4] at r8 r9
    by_cases hln : l = n
    · subst hln
      have h := r9 k (by rw [hlen]; exact hk)
      rw [h, List.getElem_map, List.getElem_range]
    · have hlt : l < n := by omega
      rw [r8 _ (by
        have : (2 * l + g.vs.field) * 1440 + 1440 ≤ (2 * n + g.vs.field) * 1440 := by
          have h2 : 2 * l + g.vs.field + 1 ≤ 2 * n + g.vs.field := by omega
          calc (2 * l + g.vs.field) * 1440 + 1440 = (2 * l + g.vs.field + 1) * 1440 := by ring
            _ ≤ (2 * n + g.vs.field) * 1440 := Nat.mul_le_mul_right _ h2
        omega)]
      exact q8 l hlt k hk

/-- The closing SAV code of a PAL field: from `HSYNC` with `field = 1` and budget left, an SAV
code taking `field` to 0 writes the first 829440 bytes of the frame buffer to the sink. -/
theorem feed_closing_sav (o : options_t) (g G : globals_t) (lines : Nat → Nat → Nat) (c2 : Nat)
    (hpal : o.tv_standard = tv_standards.PAL)
    (hbudget : o.frame_count = -1 ∨ g.frames_generated < o.frame_count)
    (q1 : G.vs.state = sync_state.HSYNC) (q4 : G.vs.field = 1) (q6 : G.sink = g.sink)
    (q7 : G.frames_generated = g.frames_generated)
    (q8 : ∀ l, l < 288 → ∀ k, k < 1440 → G.frame ((2 * l + 1) * 1440 + k) = lines l k)
    (hc2ne : c2 ≠ 0) (h6 : c2 &&& 0x40 = 0) (h4 : c2 &&& 0x10 = 0) :
    ∃ w : List Nat,
      (feed o G [0xff, 0x00, 0x00, c2]).sink = g.sink ++ [w] ∧
      w.length = 829440 ∧
      ∀ l, l < 288 → ∀ k, k < 1440 → w[(2 * l + 1) * 1440 + k]? = some (lines l k) := by
  have hsz : 720 * 2 * lines_per_field o * 2 = 829440 := by
    unfold lines_per_field
    rw [if_pos hpal]
  have hcond : (c2 &&& 0x40 = 0 ∧
      (0 ^^^ (with_state (with_state G sync_state.SYNCAV) sync_state.HSYNC).vs.field) ≠ 0) ∧
      ((with_state (with_state G sync_state.SYNCAV) sync_state.HSYNC).frames_generated
          < o.frame_count ∨ o.frame_count = -1) := by
    have ef : (with_state (with_state G sync_state.SYNCAV) sync_state.HSYNC).vs.field = 1 := q4
    have en : (with_state (with_state G sync_state.SYNCAV) sync_state.HSYNC).frames_generated
        = g.frames_generated := q7
    rw [ef, en]
    exact ⟨⟨h6, by decide⟩, hbudget.symm⟩
  have es : (with_state (with_state G sync_state.SYNCAV) sync_state.HSYNC).sink = g.sink := q6
  have efr : (with_state (with_state G sync_state.SYNCAV) sync_state.HSYNC).frame = G.frame :=
    rfl
  refine ⟨(List.range 829440).map G.frame, ?_, ?_, ?_⟩
  · rw [feed_code o G c2 q1, process_sav_eq o _ c2 rfl hc2ne h4, process_sav_sink,
      if_pos hcond, hsz, es, efr, frame_bytes]
  · rw [List.length_map, List.length_range]
  · intro l hl k hk
    have hidx : (2 * l + 1) * 1440 + k < 829440 := by omega
    rw [List.getElem?_map, List.getElem?_range hidx, Option.map_some', q8 l hl k hk]

/-- Claim C6. Round trip of one PAL field. From `HSYNC`, with `tv_standard = PAL` and an
unexhausted frame budget, feed: an SAV code whose control byte `c1` has bit 6 set and which
leaves the decoder at line 0, column 0 with `blank = 0`; then 288 lines of 1440 pixel bytes
(none equal to `0xff`), each followed by an EAV code (bit 4 set); then an SAV code whose
control byte `c2` is non-zero with bits 6 and 4 clear.  Exactly one write reaches the sink, of
`720 * 2 * 288 * 2 = 829440` bytes, and its byte at index `(2 * l + 1) * 1440 + k` is the
`k`-th byte of line `l`, for every `l < 288` and `k < 1440`. -/
theorem C6_pal_field_roundtrip (o : options_t) (g : globals_t) (lines : Nat → Nat → Nat)
    (eav : Nat → Nat) (c1 c2 : Nat)
    (hpal : o.tv_standard = tv_standards.PAL)
    (hbudget : o.frame_count = -1 ∨ g.frames_generated < o.frame_count)
    (hs : g.vs.state = sync_state.HSYNC)
    (hc1 : c1 &&& 0x40 ≠ 0 ∧ c1 &&& 0x10 = 0)
    (hstart : (feed o g [0xff, 0x00, 0x00, c1]).vs.line = 0 ∧
      (feed o g [0xff, 0x00, 0x00, c1]).vs.col = 0 ∧
      (feed o g [0xff, 0x00, 0x00, c1]).vs.blank = 0)
    (hpix : ∀ l, l < 288 → ∀ k, k < 1440 → lines l k ≠ 0xff)
    (heav : ∀ l, l < 288 → eav l &&& 0x10 ≠ 0)
    (hc2 : c2 ≠ 0 ∧ c2 &&& 0x40 = 0 ∧ c2 &&& 0x10 = 0) :
    ∃ w : List Nat,
      (feed o g (field_stream c1 lines eav 288 c2)).sink = g.sink ++ [w] ∧
      w.length = 829440 ∧
      ∀ l, l < 288 → ∀ k, k < 1440 → w[(2 * l + 1) * 1440 + k]? = some (lines l k) := by
  obtain ⟨h6, h4⟩ := hc1
  obtain ⟨hl0, hcol0, hbl0⟩ := hstart
  have hc1ne : c1 ≠ 0 := by
    rintro rfl
    simp at h6
  -- the state after the first SAV code
  have e1 : feed o g [0xff, 0x00, 0x00, c1] =
      process_sav o (with_state (with_state g sync_state.SYNCAV) sync_state.HSYNC) c1 := by
    rw [feed_code o g c1 hs, process_sav_eq o _ c1 rfl hc1ne h4]
  have s1 : (feed o g [0xff, 0x00, 0x00, c1]).vs.state = sync_state.HSYNC := by
    rw [e1, process_sav_state]
    rfl
  have f1 : (feed o g [0xff, 0x00, 0x00, c1]).vs.field = 1 := by
    rw [e1, process_sav_field, if_pos h6]
  have k1 : (feed o g [0xff, 0x00, 0x00, c1]).sink = g.sink := by
    rw [e1, process_sav_sink, if_neg (fun h => h6 h.1.1)]
    rfl
  have n1 : (feed o g [0xff, 0x00, 0x00, c1]).frames_generated = g.frames_generated := by
    rw [e1, process_sav_frames_generated, if_neg (fun h => h6 h.1.1)]
    rfl
  -- the state after the 288 lines
  obtain ⟨q1, -, -, q4, -, q6, q7, q8⟩ :=
    feed_lines o (feed o g [0xff, 0x00, 0x00, c1]) lines eav 288 s1 hl0 hcol0 hbl0 hpix heav
      288 (le_refl _) (by omega)
  rw [f1] at q4 q8
  rw [k1] at q6
  rw [n1] at q7
  -- the second SAV code
  rw [field_stream, feed_append, feed_append]
  exact feed_closing_sav o g _ lines c2 hpal hbudget q1 q4 q6 q7 q8 hc2.1 hc2.2.1 hc2.2.2

/-- Witness for C6: from the initial state, PAL, no frame limit, SAV byte `0xc7`, every pixel
byte `0x10`, EAV byte `0xda`, closing SAV byte `0x80`. -/
theorem C6_pal_field_roundtrip_witness :
    ∃ w : List Nat,
      (feed ⟨-1, tv_standards.PAL⟩ globals_init
        (field_stream 0xc7 (fun _ _ => 0x10) (fun _ => 0xda) 288 0x80)).sink
          = globals_init.sink ++ [w] ∧
      w.length = 829440 ∧
      ∀ l, l < 288 → ∀ k, k < 1440 →
        w[(2 * l + 1) * 1440 + k]? = some ((fun _ _ => 0x10) l k) :=
  C6_pal_field_roundtrip ⟨-1, tv_standards.PAL⟩ globals_init (fun _ _ => 0x10)
    (fun _ => 0xda) 0xc7 0x80 rfl (Or.inl rfl) rfl (by decide) (by decide)
    (fun _ _ _ _ h => absurd h (by decide : ¬ (0x10 : Nat) = 0xff))
    (fun _ _ h => absurd h (by decide : ¬ (0xda &&& 0x10 : Nat) = 0)) (by decide)

/-! ## False preambles -/

/-- From `HSYNC`, `0xff` followed by a non-zero byte `c` is flushed as two calls of
`put_data`. -/
theorem feed_false_preamble (o : options_t) (g : globals_t) (c : Nat)
    (hs : g.vs.state = sync_state.HSYNC) (hc : c ≠ 0) :
    feed o g [0xff, c] = put_data (put_data g 0xff) c := by
  simp only [feed, List.foldl_cons, List.foldl_nil]
  have h1 : process o g 0xff = with_state g sync_state.SYNCZ1 := by
    simp [process, hs, with_state]
  rw [h1]
  simp only [process, with_state, hc, if_false]
  rw [← hs]

/-- The decoder state after 1440 zero bytes fed from the initial state: line 0, column 1440. -/
theorem feed_full_line_vs (o : options_t) :
    (feed o globals_init (List.replicate 1440 0)).vs = ⟨0, 1440, sync_state.HSYNC, 0, 0⟩ := by
  have hb : ∀ b ∈ List.replicate 1440 0, b ≠ 0xff := by
    intro b hb
    rw [List.eq_of_mem_replicate hb]
    decide
  obtain ⟨h1, h2, h3, h4, h5, -⟩ :=
    feed_pixels o (List.replicate 1440 0) globals_init rfl (Nat.zero_le _) hb
  rw [List.length_replicate] at h5
  cases hv : (feed o globals_init (List.replicate 1440 0)).vs with
  | mk l c st f b =>
    rw [hv] at h1 h2 h3 h4 h5
    simp only at h1 h2 h3 h4 h5
    subst h1 h2 h3 h4 h5
    rfl

/-- Counterexample for C7 as stated.  The decoder state (line 0, column 1440, `HSYNC`,
field 0, blank 0) is reached from the initial state by 1440 pixel bytes.  From it the bytes
`FF 01` make two stores at the same offset 1440: the second one is not at the following
column (offset 1441), and it overwrites the `0xff` just stored. -/
theorem C7_false_preamble_counterexample :
    (feed ⟨-1, tv_standards.PAL⟩ globals_init (List.replicate 1440 0)).vs
        = ⟨0, 1440, sync_state.HSYNC, 0, 0⟩ ∧
    (feed ⟨-1, tv_standards.PAL⟩
      { globals_init with vs := ⟨0, 1440, sync_state.HSYNC, 0, 0⟩ } [0xff, 0x01]).stores
        = [(1440, 0xff), (1440, 0x01)] ∧
    (feed ⟨-1, tv_standards.PAL⟩
      { globals_init with vs := ⟨0, 1440, sync_state.HSYNC, 0, 0⟩ } [0xff, 0x01]).stores
        ≠ [((2 * 0 + 0) * 1440 + 1440, 0xff), ((2 * 0 + 0) * 1440 + (1440 + 1), 0x01)] ∧
    (feed ⟨-1, tv_standards.PAL⟩
      { globals_init with vs := ⟨0, 1440, sync_state.HSYNC, 0, 0⟩ } [0xff, 0x01]).frame 1440
        = 0x01 := by
  refine ⟨feed_full_line_vs _, by decide, by decide, by decide⟩

/-- Claim C7, amended. From a decoder state in `HSYNC` with `col ≤ 1440`, and for every byte
`c` other than `0x00`, feeding `[0xff, c]` makes exactly two stores: `0xff` at
`(line, field, col)` and then `c` at column `min (col + 1) 1440` of the same line and field,
which is the following column when `col < 1440` and the same clamped position when
`col = 1440`.  The decoder is left in `HSYNC` with `line`, `field` and `blank` unchanged. -/
theorem C7_false_preamble (o : options_t) (g : globals_t) (c : Nat)
    (hs : g.vs.state = sync_state.HSYNC) (hcol : g.vs.col ≤ 1440) (hc : c ≠ 0) :
    (feed o g [0xff, c]).stores =
      g.stores ++
        [((2 * g.vs.line + g.vs.field) * 1440 + g.vs.col, 0xff),
         ((2 * g.vs.line + g.vs.field) * 1440 + min (g.vs.col + 1) 1440, c)] ∧
    (g.vs.col < 1440 →
      (feed o g [0xff, c]).stores =
        g.stores ++
          [((2 * g.vs.line + g.vs.field) * 1440 + g.vs.col, 0xff),
           ((2 * g.vs.line + g.vs.field) * 1440 + (g.vs.col + 1), c)]) ∧
    (feed o g [0xff, c]).vs.state = sync_state.HSYNC ∧
    (feed o g [0xff, c]).vs.line = g.vs.line ∧
    (feed o g [0xff, c]).vs.field = g.vs.field ∧
    (feed o g [0xff, c]).vs.blank = g.vs.blank := by
  rw [feed_false_preamble o g c hs hc]
  have hst : (put_data (put_data g 0xff) c).stores =
      g.stores ++
        [((2 * g.vs.line + g.vs.field) * 1440 + g.vs.col, 0xff),
         ((2 * g.vs.line + g.vs.field) * 1440 + min (g.vs.col + 1) 1440, c)] := by
    rw [put_data_stores, put_data_stores, List.append_assoc]
    simp only [line_pos, put_data_line, put_data_field, put_data_col g 0xff hcol]
    rfl
  refine ⟨hst, ?_, hs, rfl, rfl, rfl⟩
  intro hlt
  rw [hst, Nat.min_eq_left (by omega)]

/-- Witness for C7: `FF 01` fed from the initial state. -/
theorem C7_false_preamble_witness :
    (feed ⟨-1, tv_standards.PAL⟩ globals_init [0xff, 0x01]).stores =
      globals_init.stores ++
        [((2 * 0 + 0) * 1440 + 0, 0xff), ((2 * 0 + 0) * 1440 + (0 + 1), 0x01)] :=
  (C7_false_preamble ⟨-1, tv_standards.PAL⟩ globals_init 0x01 rfl (by decide)
    (by decide)).2.1 (by decide)

/-! ## The control byte in `SYNCAV` -/

/-- A mask test with a single bit is the test of that bit. -/
theorem and_two_pow_ne_zero_iff (c i : Nat) : c &&& 2 ^ i ≠ 0 ↔ c.testBit i = true := by
  constructor
  · intro h
    by_contra hb
    apply h
    apply Nat.eq_of_testBit_eq
    intro j
    rw [Nat.testBit_and, Nat.testBit_two_pow, Nat.zero_testBit]
    by_cases hij : i = j
    · subst hij
      simp [hb]
    · simp [hij]
  · intro hb h
    have h1 : (c &&& 2 ^ i).testBit i = true := by
      rw [Nat.testBit_and, Nat.testBit_two_pow, hb]
      simp
    rw [h, Nat.zero_testBit] at h1
    exact Bool.false_ne_true h1

/-- Counterexample for C8 as stated.  Two EAV codes, three pixel bytes and a preamble fed from
the initial state bring the decoder to `SYNCAV` at line 2, column 3 with `blank = 0`.  There
the SAV byte `0xa0` (bit 5 set) takes `blank` from 0 to 1 and leaves `line` and `col` where
they were: they are not reset to 0. -/
theorem C8_blank_edge_counterexample :
    (feed ⟨-1, tv_standards.PAL⟩ globals_init
      [0xff, 0x00, 0x00, 0x90, 0xff, 0x00, 0x00, 0x90, 1, 2, 3, 0xff, 0x00, 0x00]).vs
        = ⟨2, 3, sync_state.SYNCAV, 0, 0⟩ ∧
    (process ⟨-1, tv_standards.PAL⟩
      { globals_init with vs := ⟨2, 3, sync_state.SYNCAV, 0, 0⟩ } 0xa0).vs
        = ⟨2, 3, sync_state.HSYNC, 0, 1⟩ ∧
    ¬ ((process ⟨-1, tv_standards.PAL⟩
        { globals_init with vs := ⟨2, 3, sync_state.SYNCAV, 0, 0⟩ } 0xa0).vs.line = 0 ∧
       (process ⟨-1, tv_standards.PAL⟩
        { globals_init with vs := ⟨2, 3, sync_state.SYNCAV, 0, 0⟩ } 0xa0).vs.col = 0) := by
  refine ⟨by decide, by decide, by decide⟩

/-- Claim C8, amended. For an SAV control byte `c` (non-zero, bit 4 clear) consumed in
`SYNCAV`: when it changes the blank flag from 1 to 0 (bit 5 of `c` clear in a state with
`blank = 1`, the falling edge of `blank`), `process` resets `line` to 0 and `col` to 0; when it
changes the blank flag from 0 to 1 (the rising edge), `line` and `col` are left unchanged. -/
theorem C8_blank_edge (o : options_t) (g : globals_t) (c : Nat)
    (hs : g.vs.state = sync_state.SYNCAV) (hc : c ≠ 0) (h4 : c &&& 0x10 = 0) :
    (g.vs.blank = 1 → c &&& 0x20 = 0 →
      (process o g c).vs.blank = 0 ∧
      (process o g c).vs.line = 0 ∧
      (process o g c).vs.col = 0) ∧
    (g.vs.blank = 0 → c &&& 0x20 ≠ 0 →
      (process o g c).vs.blank = 1 ∧
      (process o g c).vs.line = g.vs.line ∧
      (process o g c).vs.col = g.vs.col) := by
  rw [process_sav_eq o g c hs hc h4, process_sav_blank, process_sav_line, process_sav_col]
  constructor
  · intro hb h5
    have he : (0 ^^^ (with_state g sync_state.HSYNC).vs.blank) ≠ 0 := by
      show (0 ^^^ g.vs.blank) ≠ 0
      rw [hb]
      decide
    rw [if_neg (not_not.mpr h5), if_pos ⟨h5, he⟩, if_pos ⟨h5, he⟩]
    exact ⟨rfl, rfl, rfl⟩
  · intro _ h5
    rw [if_pos h5, if_neg (fun h => h5 h.1), if_neg (fun h => h5 h.1)]
    exact ⟨rfl, rfl, rfl⟩

/-- Witness for C8: at line 5, column 7 with `blank = 1`, the SAV byte `0x80` (bit 5 clear)
resets `line` and `col`. -/
theorem C8_blank_edge_witness :
    (process ⟨-1, tv_standards.PAL⟩
      { globals_init with vs := ⟨5, 7, sync_state.SYNCAV, 0, 1⟩ } 0x80).vs.blank = 0 ∧
    (process ⟨-1, tv_standards.PAL⟩
      { globals_init with vs := ⟨5, 7, sync_state.SYNCAV, 0, 1⟩ } 0x80).vs.line = 0 ∧
    (process ⟨-1, tv_standards.PAL⟩
      { globals_init with vs := ⟨5, 7, sync_state.SYNCAV, 0, 1⟩ } 0x80).vs.col = 0 :=
  (C8_blank_edge ⟨-1, tv_standards.PAL⟩
    { globals_init with vs := ⟨5, 7, sync_state.SYNCAV, 0, 1⟩ } 0x80 rfl (by decide)
    (by decide)).1 rfl (by decide)

/-- Claim C9. For every decoder state in `SYNCAV` and every control byte `c`: the next state
is `HSYNC` and nothing is stored in the frame buffer.  If `c = 0x00` (slice ID) then `line`,
`col`, `field`, `blank`, the frame buffer, `frames_generated` and `stop_sending_requests` are
unchanged (and so is the sink).  If `c` is non-zero with bit 4 clear (SAV) then afterwards
`field = 1` exactly when bit 6 of `c` is set and `blank = 1` exactly when bit 5 of `c` is
set. -/
theorem C9_control_byte (o : options_t) (g : globals_t) (c : Nat)
    (hs : g.vs.state = sync_state.SYNCAV) :
    (process o g c).vs.state = sync_state.HSYNC ∧
    (process o g c).stores = g.stores ∧
    (process o g c).frame = g.frame ∧
    (c = 0x00 →
      (process o g c).vs.line = g.vs.line ∧
      (process o g c).vs.col = g.vs.col ∧
      (process o g c).vs.field = g.vs.field ∧
      (process o g c).vs.blank = g.vs.blank ∧
      (process o g c).frames_generated = g.frames_generated ∧
      (process o g c).stop_sending_requests = g.stop_sending_requests ∧
      (process o g c).sink = g.sink) ∧
    (c ≠ 0x00 → c &&& 0x10 = 0 →
      ((process o g c).vs.field = 1 ↔ c.testBit 6 = true) ∧
      ((process o g c).vs.field = 1 ↔ c &&& 0x40 ≠ 0) ∧
      ((process o g c).vs.blank = 1 ↔ c.testBit 5 = true) ∧
      ((process o g c).vs.blank = 1 ↔ c &&& 0x20 ≠ 0)) := by
  by_cases hc : c = 0
  · have e : process o g c = with_state g sync_state.HSYNC := by
      simp [process, hs, hc, with_state]
    rw [e]
    exact ⟨rfl, rfl, rfl, fun _ => ⟨rfl, rfl, rfl, rfl, rfl, rfl, rfl⟩, fun h => absurd hc h⟩
  · by_cases h4 : c &&& 0x10 = 0
    · rw [process_sav_eq o g c hs hc h4, process_sav_state, process_sav_stores,
        process_sav_frame, process_sav_field, process_sav_blank]
      refine ⟨rfl, rfl, rfl, fun h => absurd h hc, fun _ _ => ?_⟩
      have b6 := and_two_pow_ne_zero_iff c 6
      have b5 := and_two_pow_ne_zero_iff c 5
      have m6 : ((if c &&& 0x40 ≠ 0 then 1 else 0) = 1 ↔ c &&& 0x40 ≠ 0) := by
        split <;> simp_all
      have m5 : ((if c &&& 0x20 ≠ 0 then 1 else 0) = 1 ↔ c &&& 0x20 ≠ 0) := by
        split <;> simp_all
      exact ⟨m6.trans b6, m6, m5.trans b5, m5⟩
    · rw [process_eav o g c hs h4]
      refine ⟨?_, ?_, ?_, fun h => absurd h hc, fun _ h => absurd h h4⟩
      · split <;> rfl
      · split <;> rfl
      · split <;> rfl

/-- Witness for C9: the SAV byte `0xe0` (bits 7, 6 and 5) consumed in `SYNCAV` sets `field`
and `blank`. -/
theorem C9_control_byte_witness :
    ((process ⟨-1, tv_standards.PAL⟩
        { globals_init with vs := ⟨5, 7, sync_state.SYNCAV, 0, 0⟩ } 0xe0).vs.field = 1 ↔
      (0xe0 : Nat).testBit 6 = true) ∧
    (process ⟨-1, tv_standards.PAL⟩
        { globals_init with vs := ⟨5, 7, sync_state.SYNCAV, 0, 0⟩ } 0xe0).vs.state
      = sync_state.HSYNC :=
  have h := C9_control_byte ⟨-1, tv_standards.PAL⟩
    { globals_init with vs := ⟨5, 7, sync_state.SYNCAV, 0, 0⟩ } 0xe0 rfl
  ⟨(h.2.2.2.2 (by decide) (by decide)).1, h.1⟩

/-! ## The clamps as an invariant -/

/-- One step of `process` keeps `col ≤ 1440` and `line ≤ 625`. -/
theorem process_bounds (o : options_t) (g : globals_t) (c : Nat)
    (h : g.vs.col ≤ 1440 ∧ g.vs.line ≤ 625) :
    (process o g c).vs.col ≤ 1440 ∧ (process o g c).vs.line ≤ 625 := by
  obtain ⟨hcol, hline⟩ := h
  cases hs : g.vs.state with
  | HSYNC =>
    by_cases hc : c = 0xff
    · have e : process o g c = with_state g sync_state.SYNCZ1 := by
        simp [process, hs, hc, with_state]
      rw [e]
      exact ⟨hcol, hline⟩
    · rw [process_hsync_data o g c hs hc]
      exact ⟨put_data_col_le g c, hline⟩
  | SYNCZ1 =>
    by_cases hc : c = 0
    · have e : process o g c = with_state g sync_state.SYNCZ2 := by
        simp [process, hs, hc, with_state]
      rw [e]
      exact ⟨hcol, hline⟩
    · have e : process o g c = put_data (put_data (with_state g sync_state.HSYNC) 0xff) c := by
        simp [process, hs, hc, with_state]
      rw [e]
      exact ⟨put_data_col_le _ c, hline⟩
  | SYNCZ2 =>
    by_cases hc : c = 0
    · have e : process o g c = with_state g sync_state.SYNCAV := by
        simp [process, hs, hc, with_state]
      rw [e]
      exact ⟨hcol, hline⟩
    · have e : process o g c =
          put_data (put_data (put_data (with_state g sync_state.HSYNC) 0xff) 0x00) c := by
        simp [process, hs, hc, with_state]
      rw [e]
      exact ⟨put_data_col_le _ c, hline⟩
  | SYNCAV =>
    by_cases hc : c = 0
    · have e : process o g c = with_state g sync_state.HSYNC := by
        simp [process, hs, hc, with_state]
      rw [e]
      exact ⟨hcol, hline⟩
    · by_cases h4 : c &&& 0x10 = 0
      · rw [process_sav_eq o g c hs hc h4, process_sav_col, process_sav_line]
        constructor
        · split
          · omega
          · exact hcol
        · split
          · omega
          · exact hline
      · rw [process_eav o g c hs h4]
        split
        · refine ⟨Nat.zero_le _, ?_⟩
          show (if (g.vs.line + 1) % 65536 > 625 then 625 else (g.vs.line + 1) % 65536) ≤ 625
          split <;> omega
        · exact ⟨hcol, hline⟩

/-- Feeding any byte stream keeps `col ≤ 1440` and `line ≤ 625`. -/
theorem feed_bounds (o : options_t) (bs : List Nat) : ∀ g : globals_t,
    g.vs.col ≤ 1440 ∧ g.vs.line ≤ 625 →
    (feed o g bs).vs.col ≤ 1440 ∧ (feed o g bs).vs.line ≤ 625 := by
  induction bs with
  | nil => intro g h; exact h
  | cons b bs ih =>
    intro g h
    rw [feed_cons]
    exact ih _ (process_bounds o g b h)

/-- Claim C10. The predicate `col ≤ 1440 ∧ line ≤ 625` is an invariant of the decoder: it
holds in the initial state (`line = 0`, `col = 0`, `HSYNC`, `field = 0`, `blank = 0`); for every
input byte and every configuration `process` maps a state satisfying it to a state satisfying
it; hence it holds after every byte of every stream fed from the initial state. -/
theorem C10_bounds_invariant :
    (globals_init.vs = ⟨0, 0, sync_state.HSYNC, 0, 0⟩ ∧
      globals_init.vs.col ≤ 1440 ∧ globals_init.vs.line ≤ 625) ∧
    (∀ (o : options_t) (g : globals_t) (c : Nat),
      g.vs.col ≤ 1440 ∧ g.vs.line ≤ 625 →
        (process o g c).vs.col ≤ 1440 ∧ (process o g c).vs.line ≤ 625) ∧
    (∀ (o : options_t) (bs : List Nat),
      (feed o globals_init bs).vs.col ≤ 1440 ∧ (feed o globals_init bs).vs.line ≤ 625) :=
  ⟨⟨rfl, Nat.zero_le _, Nat.zero_le _⟩, process_bounds,
    fun o bs => feed_bounds o bs globals_init ⟨Nat.zero_le _, Nat.zero_le _⟩⟩

/-- Witness for C10: the step from line 625 (EAV at the line clamp) and a stream of pixel
bytes and a false preamble from the initial state. -/
theorem C10_bounds_invariant_witness :
    ((process ⟨-1, tv_standards.PAL⟩
        { globals_init with vs := ⟨625, 1440, sync_state.SYNCAV, 0, 0⟩ } 0x90).vs.col ≤ 1440 ∧
      (process ⟨-1, tv_standards.PAL⟩
        { globals_init with vs := ⟨625, 1440, sync_state.SYNCAV, 0, 0⟩ } 0x90).vs.line ≤ 625) ∧
    ((feed ⟨-1, tv_standards.PAL⟩ globals_init [1, 2, 0xff, 0x00, 3]).vs.col ≤ 1440 ∧
      (feed ⟨-1, tv_standards.PAL⟩ globals_init [1, 2, 0xff, 0x00, 3]).vs.line ≤ 625) :=
  ⟨C10_bounds_invariant.2.1 ⟨-1, tv_standards.PAL⟩
      { globals_init with vs := ⟨625, 1440, sync_state.SYNCAV, 0, 0⟩ } 0x90
      ⟨by decide, by decide⟩,
   C10_bounds_invariant.2.2 ⟨-1, tv_standards.PAL⟩ [1, 2, 0xff, 0x00, 3]⟩

/-! ## Stores stay inside the frame buffer -/

/-- Within the bounds of `store_inv`, the offset used by `put_data` is at most 1802880. -/
theorem line_pos_le (vs : video_state_t) (hcol : vs.col ≤ 1440) (hline : vs.line ≤ 625)
    (hfield : vs.field ≤ 1) : line_pos vs ≤ 1802880 := by
  unfold line_pos
  have h : (2 * vs.line + vs.field) * (720 * 2) ≤ (2 * 625 + 1) * (720 * 2) :=
    Nat.mul_le_mul_right _ (by omega)
  omega

/-- The bounds `store_inv` are preserved by `put_data`. -/
theorem put_data_store_inv (g : globals_t) (c : Nat) (h : store_inv g) :
    store_inv (put_data g c) := by
  obtain ⟨hcol, hline, hfield, hst⟩ := h
  refine ⟨put_data_col_le g c, hline, hfield, ?_⟩
  intro p hp
  rw [put_data_stores] at hp
  rcases List.mem_append.mp hp with h1 | h1
  · exact hst p h1
  · rw [List.mem_singleton] at h1
    rw [h1]
    have := line_pos_le g.vs hcol hline hfield
    show line_pos g.vs < frame_size
    unfold frame_size
    omega

/-- The bounds `store_inv` are preserved by every step of `process`. -/
theorem process_store_inv (o : options_t) (g : globals_t) (c : Nat) (h : store_inv g) :
    store_inv (process o g c) := by
  cases hs : g.vs.state with
  | HSYNC =>
    by_cases hc : c = 0xff
    · have e : process o g c = with_state g sync_state.SYNCZ1 := by
        simp [process, hs, hc, with_state]
      rw [e]
      exact h
    · rw [process_hsync_data o g c hs hc]
      exact put_data_store_inv g c h
  | SYNCZ1 =>
    by_cases hc : c = 0
    · have e : process o g c = with_state g sync_state.SYNCZ2 := by
        simp [process, hs, hc, with_state]
      rw [e]
      exact h
    · have e : process o g c = put_data (put_data (with_state g sync_state.HSYNC) 0xff) c := by
        simp [process, hs, hc, with_state]
      rw [e]
      exact put_data_store_inv _ c (put_data_store_inv _ 0xff h)
  | SYNCZ2 =>
    by_cases hc : c = 0
    · have e : process o g c = with_state g sync_state.SYNCAV := by
        simp [process, hs, hc, with_state]
      rw [e]
      exact h
    · have e : process o g c =
          put_data (put_data (put_data (with_state g sync_state.HSYNC) 0xff) 0x00) c := by
        simp [process, hs, hc, with_state]
      rw [e]
      exact put_data_store_inv _ c (put_data_store_inv _ 0x00 (put_data_store_inv _ 0xff h))
  | SYNCAV =>
    obtain ⟨hcol, hline, hfield, hst⟩ := h
    by_cases hc : c = 0
    · have e : process o g c = with_state g sync_state.HSYNC := by
        simp [process, hs, hc, with_state]
      rw [e]
      exact ⟨hcol, hline, hfield, hst⟩
    · by_cases h4 : c &&& 0x10 = 0
      · rw [process_sav_eq o g c hs hc h4]
        unfold store_inv
        rw [process_sav_col, process_sav_line, process_sav_field, process_sav_stores]
        refine ⟨?_, ?_, ?_, hst⟩
        · split
          · omega
          · exact hcol
        · split
          · omega
          · exact hline
        · split <;> omega
      · have hb := process_bounds o g c ⟨hcol, hline⟩
        refine ⟨hb.1, hb.2, ?_, ?_⟩
        · rw [process_eav o g c hs h4]
          split <;> exact hfield
        · rw [process_eav o g c hs h4]
          split <;> exact hst

/-- The bounds `store_inv` are preserved by feeding any byte stream. -/
theorem feed_store_inv (o : options_t) (bs : List Nat) : ∀ g : globals_t,
    store_inv g → store_inv (feed o g bs) := by
  induction bs with
  | nil => intro g h; exact h
  | cons b bs ih =>
    intro g h
    rw [feed_cons]
    exact ih _ (process_store_inv o g b h)

/-- Claim C11. Every frame-buffer write is in bounds: for every byte stream processed from the
initial state, each offset at which `put_data` has stored a byte (the offset computed from
`col` before its increment) is below the buffer size `720 * 2 * 627 * 2 = 1805760`; and for
every decoder state with `line ≤ 625`, `col ≤ 1440` and `field` 0 or 1 the write offset
`(2 * line + field) * 1440 + col` is at most 1802880. -/
theorem C11_stores_in_bounds :
    frame_size = 1805760 ∧
    (∀ (o : options_t) (bs : List Nat) (p : Nat × Nat),
      p ∈ (feed o globals_init bs).stores → p.1 < 1805760) ∧
    (∀ vs : video_state_t, vs.line ≤ 625 → vs.col ≤ 1440 → (vs.field = 0 ∨ vs.field = 1) →
      (2 * vs.line + vs.field) * 1440 + vs.col ≤ 1802880) := by
  refine ⟨rfl, ?_, ?_⟩
  · intro o bs p hp
    have hinit : store_inv globals_init :=
      ⟨Nat.zero_le _, Nat.zero_le _, Nat.zero_le _, fun p hp => absurd hp (List.not_mem_nil p)⟩
    exact (feed_store_inv o bs globals_init hinit).2.2.2 p hp
  · intro vs hline hcol hfield
    exact line_pos_le vs hcol hline (by omega)

/-- Witness for C11: the store made by the stream `FF 01 02` from the initial state at
offset 2, and the write offset of the state at both clamps with `field = 1`. -/
theorem C11_stores_in_bounds_witness :
    ((2 : Nat), (2 : Nat)).1 < 1805760 ∧
    (2 * (⟨625, 1440, sync_state.HSYNC, 1, 0⟩ : video_state_t).line +
        (⟨625, 1440, sync_state.HSYNC, 1, 0⟩ : video_state_t).field) * 1440 +
      (⟨625, 1440, sync_state.HSYNC, 1, 0⟩ : video_state_t).col ≤ 1802880 :=
  ⟨C11_stores_in_bounds.2.1 ⟨-1, tv_standards.PAL⟩ [0xff, 0x01, 0x02] (2, 2) (by decide),
   C11_stores_in_bounds.2.2 ⟨625, 1440, sync_state.HSYNC, 1, 0⟩ (by decide) (by decide)
     (Or.inr rfl)⟩

/-! ## The block loop for any packet length -/

/-- The block loop started at stride `j` when `m` strides remain below `length`: it feeds the
payload of the strides `j, ..., j + m - 1`, each one in full. -/
theorem gotdata_blocks_strides_any (o : options_t) (data : Nat → Nat) (length : Nat) (m : Nat) :
    ∀ (j : Nat) (g : globals_t),
      length ≤ 1024 * (j + m) → (m = 0 ∨ 1024 * (j + m - 1) < length) →
      gotdata_blocks o data length (1024 * j) g =
        feed o g ((List.range' j m).flatMap fun j =>
          if data (1024 * j) = 0xaa ∧ data (1024 * j + 1) = 0xaa ∧ data (1024 * j + 2) = 0x00 ∧
              data (1024 * j + 3) = 0x00 then
            (List.range 1020).map fun k => data (1024 * j + 4 + k)
          else []) := by
  induction m with
  | zero =>
    intro j g h1 _
    rw [gotdata_blocks_done o data _ _ g (by omega)]
    rfl
  | succ m ih =>
    intro j g h1 h2
    have hlt : 1024 * (j + m) < length := by
      rcases h2 with h | h
      · omega
      · have e : j + (m + 1) - 1 = j + m := by omega
        rw [e] at h
        exact h
    rw [gotdata_blocks_step o data _ _ g (by omega), List.range'_succ, List.flatMap_cons,
      feed_append]
    have e1 : 1024 * j + 0x400 = 1024 * (j + 1) := by omega
    rw [e1, ih (j + 1) _ (by omega) (by
      rcases Nat.eq_zero_or_pos m with h | h
      · exact Or.inl h
      · right
        have e : j + 1 + m - 1 = j + m := by omega
        rw [e]
        exact hlt)]
    congr 1
    split
    · exact gotdata_block_eq_feed o data _ g
    · rfl

/-- The block loop over a packet of actual length `length` visits `⌈length / 1024⌉` strides
and feeds the full payload of each one that carries the marker. -/
theorem gotdata_blocks_eq_feed (o : options_t) (data : Nat → Nat) (length : Nat)
    (g : globals_t) :
    gotdata_blocks o data length 0 g =
      feed o g (spec_payload data ((length + 1023) / 1024)) := by
  have h := gotdata_blocks_strides_any o data length ((length + 1023) / 1024) 0 g
    (by omega) (by omega)
  rw [spec_payload, List.range_eq_range']
  exact h

/-! ## Completions: `gotdata` -/

/-- Two values of `globals_t` with the same fields are equal. -/
theorem globals_eq (a b : globals_t) (h1 : a.vs = b.vs) (h2 : a.frame = b.frame)
    (h3 : a.frames_generated = b.frames_generated)
    (h4 : a.stop_sending_requests = b.stop_sending_requests)
    (h5 : a.pending_requests = b.pending_requests) (h6 : a.stores = b.stores)
    (h7 : a.sink = b.sink) : a = b := by
  cases a
  cases b
  simp only at h1 h2 h3 h4 h5 h6 h7
  subst h1 h2 h3 h4 h5 h6 h7
  rfl

/-- Two decoder states with the same fields are equal. -/
theorem vs_eq (a b : video_state_t) (h1 : a.line = b.line) (h2 : a.col = b.col)
    (h3 : a.state = b.state) (h4 : a.field = b.field) (h5 : a.blank = b.blank) : a = b := by
  cases a
  cases b
  simp only at h1 h2 h3 h4 h5
  subst h1 h2 h3 h4 h5
  rfl

/-- The SAV branch does not look at `pending_requests`. -/
theorem process_sav_with_pending (o : options_t) (g : globals_t) (c : Nat) (x : Int) :
    process_sav o { g with pending_requests := x } c =
      { process_sav o g c with pending_requests := x } := by
  apply globals_eq
  · apply vs_eq
    · show (process_sav o _ c).vs.line = (process_sav o g c).vs.line
      rw [process_sav_line, process_sav_line]
    · show (process_sav o _ c).vs.col = (process_sav o g c).vs.col
      rw [process_sav_col, process_sav_col]
    · show (process_sav o _ c).vs.state = (process_sav o g c).vs.state
      rw [process_sav_state, process_sav_state]
    · show (process_sav o _ c).vs.field = (process_sav o g c).vs.field
      rw [process_sav_field, process_sav_field]
    · show (process_sav o _ c).vs.blank = (process_sav o g c).vs.blank
      rw [process_sav_blank, process_sav_blank]
  · show (process_sav o _ c).frame = (process_sav o g c).frame
    rw [process_sav_frame, process_sav_frame]
  · show (process_sav o _ c).frames_generated = (process_sav o g c).frames_generated
    rw [process_sav_frames_generated, process_sav_frames_generated]
  · show (process_sav o _ c).stop_sending_requests = (process_sav o g c).stop_sending_requests
    rw [process_sav_stop, process_sav_stop, process_sav_frames_generated,
      process_sav_frames_generated]
  · show (process_sav o _ c).pending_requests = x
    rw [process_sav_pending]
  · show (process_sav o _ c).stores = (process_sav o g c).stores
    rw [process_sav_stores, process_sav_stores]
  · show (process_sav o _ c).sink = (process_sav o g c).sink
    rw [process_sav_sink, process_sav_sink]

/-- A step of `process` does not look at `pending_requests`. -/
theorem process_with_pending (o : options_t) (g : globals_t) (c : Nat) (x : Int) :
    process o { g with pending_requests := x } c =
      { process o g c with pending_requests := x } := by
  cases hs : g.vs.state with
  | HSYNC =>
    simp only [process, hs]
    split <;> rfl
  | SYNCZ1 =>
    simp only [process, hs]
    split <;> rfl
  | SYNCZ2 =>
    simp only [process, hs]
    split <;> rfl
  | SYNCAV =>
    by_cases hc : c = 0
    · simp [process, hs, hc]
    · have hs1 : ({ g with pending_requests := x } : globals_t).vs.state
          = sync_state.SYNCAV := hs
      by_cases h4 : c &&& 0x10 = 0
      · rw [process_sav_eq o g c hs hc h4, process_sav_eq o _ c hs1 hc h4]
        exact process_sav_with_pending o (with_state g sync_state.HSYNC) c x
      · rw [process_eav o g c hs h4, process_eav o _ c hs1 h4]
        by_cases hb : g.vs.blank = 0
        · rw [if_pos hb, if_pos (show ({ g with pending_requests := x } : globals_t).vs.blank
            = 0 from hb)]
        · rw [if_neg hb, if_neg (show ¬ ({ g with pending_requests := x } : globals_t).vs.blank
            = 0 from hb)]
          rfl

theorem feed_with_pending (o : options_t) (bs : List Nat) : ∀ (g : globals_t) (x : Int),
    feed o { g with pending_requests := x } bs =
      { feed o g bs with pending_requests := x } := by
  induction bs with
  | nil => intro g x; rfl
  | cons b bs ih =>
    intro g x
    rw [feed_cons, feed_cons, process_with_pending, ih]

theorem gotdata_packets_with_pending (o : options_t) (tfr : List iso_packet_t) :
    ∀ (g : globals_t) (x : Int),
      gotdata_packets o tfr { g with pending_requests := x } =
        { gotdata_packets o tfr g with pending_requests := x } := by
  induction tfr with
  | nil => intro g x; rfl
  | cons p tfr ih =>
    intro g x
    show gotdata_packets o tfr (gotdata_blocks o p.data p.actual_length 0 _) =
      { gotdata_packets o tfr (gotdata_blocks o p.data p.actual_length 0 g) with
        pending_requests := x }
    rw [gotdata_blocks_eq_feed, gotdata_blocks_eq_feed, feed_with_pending, ih]

/-- The packet loop feeds the payloads of the packets one after the other. -/
theorem gotdata_packets_eq_feed (o : options_t) (tfr : List iso_packet_t) :
    ∀ g : globals_t,
      gotdata_packets o tfr g =
        feed o g (tfr.flatMap fun p =>
          spec_payload p.data ((p.actual_length + 1023) / 1024)) := by
  induction tfr with
  | nil => intro g; rfl
  | cons p tfr ih =>
    intro g
    show gotdata_packets o tfr (gotdata_blocks o p.data p.actual_length 0 g) = _
    rw [gotdata_blocks_eq_feed, ih, List.flatMap_cons, feed_append]

/-- The value of `gotdata` when a resubmission succeeds, in terms of the globals `d` obtained
by decoding the packets from the globals at entry. -/
theorem gotdata_ok (o : options_t) (tfr : List iso_packet_t) (g : globals_t) :
    gotdata o tfr 0 g =
      if (gotdata_packets o tfr g).stop_sending_requests = 0 then
        some ⟨{ gotdata_packets o tfr g with pending_requests := g.pending_requests - 1 + 1 },
          true⟩
      else
        some ⟨{ gotdata_packets o tfr g with pending_requests := g.pending_requests - 1 },
          false⟩ := by
  unfold gotdata
  simp only [gotdata_packets_with_pending]
  split_ifs <;> first | rfl | (exfalso; omega)

/-- A step of `process` never clears the stop flag. -/
theorem process_stop_ne_zero (o : options_t) (g : globals_t) (c : Nat)
    (h : g.stop_sending_requests ≠ 0) : (process o g c).stop_sending_requests ≠ 0 := by
  rcases process_counters o g c with ⟨-, -, h3⟩ | ⟨-, -, -, he⟩
  · rw [h3]
    exact h
  · rw [he, process_sav_stop]
    split
    · decide
    · exact h

/-- Feeding a byte stream never clears the stop flag. -/
theorem feed_stop_ne_zero (o : options_t) (bs : List Nat) : ∀ g : globals_t,
    g.stop_sending_requests ≠ 0 → (feed o g bs).stop_sending_requests ≠ 0 := by
  induction bs with
  | nil => intro g h; exact h
  | cons b bs ih =>
    intro g h
    rw [feed_cons]
    exact ih _ (process_stop_ne_zero o g b h)

/-- The packet loop never clears the stop flag. -/
theorem gotdata_packets_stop_ne_zero (o : options_t) (tfr : List iso_packet_t) (g : globals_t)
    (h : g.stop_sending_requests ≠ 0) :
    (gotdata_packets o tfr g).stop_sending_requests ≠ 0 := by
  rw [gotdata_packets_eq_feed]
  exact feed_stop_ne_zero o _ g h

/-- A packet of one stride whose payload starts with the SAV byte `0x80`, decoded from
`SYNCAV` with `field = 1` under a frame limit of 1: the frame is written and the stop flag is
set by the end of the packet. -/
theorem frame_limit_packet_stop :
    (gotdata_packets ⟨1, tv_standards.PAL⟩
      [⟨fun i => if i < 2 then 0xaa else if i = 4 then 0x80 else 0, 1024⟩]
      { globals_init with
        vs := ⟨0, 0, sync_state.SYNCAV, 1, 0⟩, pending_requests := 4 }).stop_sending_requests
      ≠ 0 := by
  rw [gotdata_packets_eq_feed]
  have e : ([⟨fun i => if i < 2 then 0xaa else if i = 4 then 0x80 else 0, 1024⟩] :
      List iso_packet_t).flatMap (fun p =>
        spec_payload p.data ((p.actual_length + 1023) / 1024)) =
      0x80 :: (List.range' 1 1019).map
        (fun k => (fun i => if i < 2 then 0xaa else if i = 4 then 0x80 else 0) (1024 * 0 + 4 + k))
        := by
    have r1 : List.range ((1024 + 1023) / 1024) = [0] := by decide
    rw [List.flatMap_cons, List.flatMap_nil, List.append_nil, spec_payload, r1,
      List.flatMap_cons, List.flatMap_nil, List.append_nil, if_pos (by decide),
      List.range_eq_range', show (1020 : Nat) = 1019 + 1 from rfl, List.range'_succ,
      List.map_cons]
    rfl
  rw [e, feed_cons]
  apply feed_stop_ne_zero
  decide

/-- Claim C12. For a completion handled by `gotdata` with `pending_requests = p` beforehand and
a successful resubmission (`libusb_submit_transfer` returning 0): `gotdata` returns; the
payload of all packets is decoded first (the globals `d` of the packet loop are those of
feeding the whole payload to `process`), and the stop flag consulted is that of `d`.  If it is
clear the slot is resubmitted and `pending_requests = p`; if it is set the slot is not
resubmitted and `pending_requests = p - 1`.  In particular a completion that starts with the
stop flag clear and whose own payload sets it does not resubmit its slot. -/
theorem C12_completion (o : options_t) (tfr : List iso_packet_t) (g : globals_t) :
    gotdata_packets o tfr g =
      feed o g (tfr.flatMap fun p => spec_payload p.data ((p.actual_length + 1023) / 1024)) ∧
    ∃ r : gotdata_result_t, gotdata o tfr 0 g = some r ∧
      r.g.vs = (gotdata_packets o tfr g).vs ∧
      r.g.frame = (gotdata_packets o tfr g).frame ∧
      r.g.frames_generated = (gotdata_packets o tfr g).frames_generated ∧
      r.g.stop_sending_requests = (gotdata_packets o tfr g).stop_sending_requests ∧
      r.g.stores = (gotdata_packets o tfr g).stores ∧
      r.g.sink = (gotdata_packets o tfr g).sink ∧
      ((gotdata_packets o tfr g).stop_sending_requests = 0 →
        r.resubmitted = true ∧ r.g.pending_requests = g.pending_requests) ∧
      ((gotdata_packets o tfr g).stop_sending_requests ≠ 0 →
        r.resubmitted = false ∧ r.g.pending_requests = g.pending_requests - 1) ∧
      (g.stop_sending_requests = 0 → (gotdata_packets o tfr g).stop_sending_requests ≠ 0 →
        r.resubmitted = false ∧ r.g.pending_requests = g.pending_requests - 1) := by
  refine ⟨gotdata_packets_eq_feed o tfr g, ?_⟩
  rw [gotdata_ok]
  by_cases hd : (gotdata_packets o tfr g).stop_sending_requests = 0
  · rw [if_pos hd]
    refine ⟨_, rfl, rfl, rfl, rfl, rfl, rfl, rfl, ?_, fun h => absurd hd h,
      fun _ h => absurd hd h⟩
    intro _
    refine ⟨rfl, ?_⟩
    show g.pending_requests - 1 + 1 = g.pending_requests
    omega
  · rw [if_neg hd]
    exact ⟨_, rfl, rfl, rfl, rfl, rfl, rfl, rfl, fun h => absurd h hd, fun _ => ⟨rfl, rfl⟩,
      fun _ _ => ⟨rfl, rfl⟩⟩

/-- Witness for C12: with frame limit 1 and four transfers pending, a completion whose payload
closes the frame is not resubmitted. -/
theorem C12_completion_witness :
    ∃ r : gotdata_result_t,
      gotdata ⟨1, tv_standards.PAL⟩
        [⟨fun i => if i < 2 then 0xaa else if i = 4 then 0x80 else 0, 1024⟩] 0
        { globals_init with vs := ⟨0, 0, sync_state.SYNCAV, 1, 0⟩, pending_requests := 4 }
          = some r ∧
      r.resubmitted = false ∧ r.g.pending_requests = 4 - 1 :=
  match (C12_completion ⟨1, tv_standards.PAL⟩
      [⟨fun i => if i < 2 then 0xaa else if i = 4 then 0x80 else 0, 1024⟩]
      { globals_init with vs := ⟨0, 0, sync_state.SYNCAV, 1, 0⟩, pending_requests := 4 }).2 with
  | ⟨r, hr, _, _, _, _, _, _, _, _, h3⟩ => ⟨r, hr, h3 rfl frame_limit_packet_stop⟩

/-! ## Draining after the stop request -/

/-- With the stop flag set at entry, `gotdata` decodes the packets, takes one off
`pending_requests` and returns without calling `libusb_submit_transfer`. -/
theorem gotdata_stopped (o : options_t) (tfr : List iso_packet_t) (ret : Int) (g : globals_t)
    (h : g.stop_sending_requests ≠ 0) :
    gotdata o tfr ret g =
      some ⟨{ gotdata_packets o tfr g with pending_requests := g.pending_requests - 1 },
        false⟩ := by
  unfold gotdata
  simp only [gotdata_packets_with_pending]
  rw [if_neg (gotdata_packets_stop_ne_zero o tfr g h)]

/-- One more completion of a guarded run. -/
theorem capture_run_cons (o : options_t) (g : globals_t) (c : completion_t)
    (cs : List completion_t) (hp : g.pending_requests > 0) (r : gotdata_result_t)
    (hr : gotdata o c.tfr c.submit_ret g = some r) (g1 : globals_t) (n : Nat)
    (h1 : capture_run o r.g cs = some (g1, n)) :
    capture_run o g (c :: cs) = some (g1, n + (if r.resubmitted then 1 else 0)) := by
  rw [capture_run, if_pos hp, hr]
  simp only
  rw [h1]

/-- Draining: with the stop flag set and `p` transfers pending, any `k ≤ p` completions are
handled without resubmission and leave `p - k` pending. -/
theorem capture_run_stopped (o : options_t) (cs : List completion_t) :
    ∀ (g : globals_t) (p : Nat), g.stop_sending_requests ≠ 0 →
      g.pending_requests = (p : Int) → cs.length ≤ p →
      ∃ g1 : globals_t, capture_run o g cs = some (g1, 0) ∧
        g1.pending_requests = (p : Int) - (cs.length : Int) ∧
        g1.stop_sending_requests ≠ 0 := by
  induction cs with
  | nil =>
    intro g p hs hp _
    refine ⟨g, rfl, ?_, hs⟩
    rw [hp]
    simp
  | cons c cs ih =>
    intro g p hs hp hlen
    rw [List.length_cons] at hlen
    have hr := gotdata_stopped o c.tfr c.submit_ret g hs
    obtain ⟨g1, h1, h2, h3⟩ := ih
      { gotdata_packets o c.tfr g with pending_requests := g.pending_requests - 1 } (p - 1)
      (gotdata_packets_stop_ne_zero o c.tfr g hs)
      (by show g.pending_requests - 1 = ((p - 1 : Nat) : Int); omega) (by omega)
    refine ⟨g1, ?_, ?_, h3⟩
    · exact capture_run_cons o g c cs (by omega) _ hr g1 0 h1
    · rw [h2, List.length_cons]
      omega

/-- Claim C13. From a state with the stop flag set: no step of `process` clears it; every
completion handled by `gotdata` returns (whatever a resubmission would have returned) without
resubmitting the slot, with the stop flag still set and `pending_requests` decreased by
exactly 1.  Hence with `p` transfers in flight, after any `k ≤ p` completions there were no
resubmissions, `pending_requests = p - k`, and `pending_requests = 0` holds exactly when
`k = p`. -/
theorem C13_drain (o : options_t) (g : globals_t) (p : Nat)
    (hstop : g.stop_sending_requests ≠ 0) (hp : g.pending_requests = (p : Int)) :
    (∀ c : Nat, (process o g c).stop_sending_requests ≠ 0) ∧
    (∀ (tfr : List iso_packet_t) (ret : Int),
      ∃ r : gotdata_result_t, gotdata o tfr ret g = some r ∧
        r.resubmitted = false ∧
        r.g.pending_requests = g.pending_requests - 1 ∧
        r.g.stop_sending_requests ≠ 0) ∧
    (∀ cs : List completion_t, cs.length ≤ p →
      ∃ g1 : globals_t, capture_run o g cs = some (g1, 0) ∧
        g1.pending_requests = (p : Int) - (cs.length : Int) ∧
        g1.stop_sending_requests ≠ 0 ∧
        (g1.pending_requests = 0 ↔ cs.length = p) ∧
        (g1.pending_requests > 0 ↔ cs.length < p)) := by
  refine ⟨fun c => process_stop_ne_zero o g c hstop, ?_, ?_⟩
  · intro tfr ret
    exact ⟨_, gotdata_stopped o tfr ret g hstop, rfl, rfl,
      gotdata_packets_stop_ne_zero o tfr g hstop⟩
  · intro cs hlen
    obtain ⟨g1, h1, h2, h3⟩ := capture_run_stopped o cs g p hstop hp hlen
    refine ⟨g1, h1, h2, h3, ?_, ?_⟩
    · rw [h2]
      omega
    · rw [h2]
      omega

/-- Witness for C13: stop flag set, two transfers pending, two completions (the second of
which would fail to resubmit): the run ends with nothing pending and no resubmission. -/
theorem C13_drain_witness :
    ∃ g1 : globals_t,
      capture_run ⟨1, tv_standards.PAL⟩
        { globals_init with stop_sending_requests := 1, pending_requests := 2 }
        [⟨[], 0⟩, ⟨[], -1⟩] = some (g1, 0) ∧
      g1.pending_requests =
        ((2 : Nat) : Int) - (([⟨[], 0⟩, ⟨[], -1⟩] : List completion_t).length : Int) :=
  match (C13_drain ⟨1, tv_standards.PAL⟩
      { globals_init with stop_sending_requests := 1, pending_requests := 2 } 2
      (by decide) rfl).2.2 [⟨[], 0⟩, ⟨[], -1⟩] (by decide) with
  | ⟨g1, h1, h2, _⟩ => ⟨g1, h1, h2⟩

/-! ## The number of transfers in flight -/

/-- A completion handled by `gotdata` leaves `pending_requests` as it was or one lower. -/
theorem gotdata_pending (o : options_t) (tfr : List iso_packet_t) (ret : Int) (g : globals_t)
    (r : gotdata_result_t) (h : gotdata o tfr ret g = some r) :
    r.g.pending_requests = g.pending_requests ∨
      r.g.pending_requests = g.pending_requests - 1 := by
  unfold gotdata at h
  simp only [gotdata_packets_with_pending] at h
  split at h
  · split at h
    · exact absurd h (by simp)
    · have e := Option.some.inj h
      rw [← e]
      left
      show g.pending_requests - 1 + 1 = g.pending_requests
      omega
  · have e := Option.some.inj h
    rw [← e]
    right
    rfl

/-- A guarded run keeps `pending_requests` between 0 and an upper bound `b` it starts
under. -/
theorem capture_run_pending (o : options_t) (b : Int) (cs : List completion_t) :
    ∀ (g g1 : globals_t) (n : Nat), 0 ≤ g.pending_requests ∧ g.pending_requests ≤ b →
      capture_run o g cs = some (g1, n) →
      0 ≤ g1.pending_requests ∧ g1.pending_requests ≤ b := by
  induction cs with
  | nil =>
    intro g g1 n hb h
    rw [capture_run] at h
    have e := Option.some.inj h
    rw [Prod.mk.injEq] at e
    rw [← e.1]
    exact hb
  | cons c cs ih =>
    intro g g1 n hb h
    rw [capture_run] at h
    split at h
    · rename_i hpos
      cases hr : gotdata o c.tfr c.submit_ret g with
      | none =>
        rw [hr] at h
        exact absurd h (by simp)
      | some r =>
        rw [hr] at h
        simp only at h
        cases h1 : capture_run o r.g cs with
        | none =>
          rw [h1] at h
          exact absurd h (by simp)
        | some q =>
          obtain ⟨g2, m⟩ := q
          rw [h1] at h
          simp only [Option.some.injEq, Prod.mk.injEq] at h
          rw [← h.1]
          have hp := gotdata_pending o c.tfr c.submit_ret g r hr
          exact ih r.g g2 m (by omega) h1
    · exact absurd h (by simp)

/-- Claim C15. In every reachable state of a capture run (all `NUM_ISO_TRANSFERS = 4` slots
submitted with `pending_requests` set to 4, followed by any sequence of completions, each
delivered only while `pending_requests > 0`, with any payloads and any resubmission
results), `0 ≤ pending_requests ≤ 4`. -/
theorem C15_pending_bounds (o : options_t) (g g1 : globals_t) (cs : List completion_t)
    (n : Nat) (h : capture_run o (main_submit g) cs = some (g1, n)) :
    NUM_ISO_TRANSFERS = 4 ∧ (main_submit g).pending_requests = 4 ∧
    0 ≤ g1.pending_requests ∧ g1.pending_requests ≤ 4 := by
  have hb : 0 ≤ (main_submit g).pending_requests ∧ (main_submit g).pending_requests ≤ 4 := by
    show 0 ≤ NUM_ISO_TRANSFERS ∧ NUM_ISO_TRANSFERS ≤ 4
    unfold NUM_ISO_TRANSFERS
    omega
  have h2 := capture_run_pending o 4 cs (main_submit g) g1 n hb h
  exact ⟨rfl, rfl, h2.1, h2.2⟩

/-- Witness for C15: after submission from the initial state, one completion without packets,
which is resubmitted. -/
theorem C15_pending_bounds_witness :
    0 ≤ ({ globals_init with pending_requests := 4 - 1 + 1 } : globals_t).pending_requests ∧
    ({ globals_init with pending_requests := 4 - 1 + 1 } : globals_t).pending_requests ≤ 4 :=
  (C15_pending_bounds ⟨-1, tv_standards.PAL⟩ globals_init
    { globals_init with pending_requests := 4 - 1 + 1 } [⟨[], 0⟩] 1 rfl).2.2

/-! ## Accounting for every input byte -/

/-- Resetting `state` to the value it has changes nothing. -/
theorem with_state_self (g : globals_t) (st : sync_state) (h : g.vs.state = st) :
    with_state g st = g := by
  unfold with_state
  rw [← h]

/-- What `process` does in each sync state, branch by branch. -/
theorem process_branches (o : options_t) (g : globals_t) (c : Nat) :
    (g.vs.state = sync_state.HSYNC → c = 0xff →
      process o g c = with_state g sync_state.SYNCZ1) ∧
    (g.vs.state = sync_state.HSYNC → c ≠ 0xff → process o g c = put_data g c) ∧
    (g.vs.state = sync_state.SYNCZ1 → c = 0 →
      process o g c = with_state g sync_state.SYNCZ2) ∧
    (g.vs.state = sync_state.SYNCZ1 → c ≠ 0 →
      process o g c = put_data (put_data (with_state g sync_state.HSYNC) 0xff) c) ∧
    (g.vs.state = sync_state.SYNCZ2 → c = 0 →
      process o g c = with_state g sync_state.SYNCAV) ∧
    (g.vs.state = sync_state.SYNCZ2 → c ≠ 0 →
      process o g c =
        put_data (put_data (put_data (with_state g sync_state.HSYNC) 0xff) 0x00) c) ∧
    (g.vs.state = sync_state.SYNCAV →
      (process o g c).vs.state = sync_state.HSYNC ∧ (process o g c).stores = g.stores) := by
  refine ⟨?_, ?_, ?_, ?_, ?_, ?_, ?_⟩
  · intro hs hc
    simp [process, hs, hc, with_state]
  · intro hs hc
    exact process_hsync_data o g c hs hc
  · intro hs hc
    simp [process, hs, hc, with_state]
  · intro hs hc
    simp [process, hs, hc, with_state]
  · intro hs hc
    simp [process, hs, hc, with_state]
  · intro hs hc
    simp [process, hs, hc, with_state]
  · intro hs
    by_cases hc : c = 0
    · have e : process o g c = with_state g sync_state.HSYNC := by
        simp [process, hs, hc, with_state]
      rw [e]
      exact ⟨rfl, rfl⟩
    · by_cases h4 : c &&& 0x10 = 0
      · rw [process_sav_eq o g c hs hc h4, process_sav_state, process_sav_stores]
        exact ⟨rfl, rfl⟩
      · rw [process_eav o g c hs h4]
        split <;> exact ⟨rfl, rfl⟩

/-- One step of `process` accounts for one input byte: the stores it appends, four bytes for
a control byte consumed in `SYNCAV`, and the change in held-back preamble bytes. -/
theorem process_account (o : options_t) (g : globals_t) (c : Nat) :
    ∃ w : List (Nat × Nat), (process o g c).stores = g.stores ++ w ∧
      w.length + 4 * (if g.vs.state = sync_state.SYNCAV then 1 else 0) +
          pending_preamble (process o g c).vs.state
        = 1 + pending_preamble g.vs.state := by
  obtain ⟨b1, b2, b3, b4, b5, b6, b7⟩ := process_branches o g c
  cases hs : g.vs.state with
  | HSYNC =>
    by_cases hc : c = 0xff
    · rw [b1 hs hc]
      exact ⟨[], (List.append_nil _).symm, rfl⟩
    · rw [b2 hs hc]
      refine ⟨[(line_pos g.vs, c)], rfl, ?_⟩
      rw [put_data_state, hs]
      rfl
  | SYNCZ1 =>
    by_cases hc : c = 0
    · rw [b3 hs hc]
      exact ⟨[], (List.append_nil _).symm, rfl⟩
    · rw [b4 hs hc]
      refine ⟨[(line_pos (with_state g sync_state.HSYNC).vs, 0xff),
        (line_pos (put_data (with_state g sync_state.HSYNC) 0xff).vs, c)], ?_, rfl⟩
      rw [put_data_stores, put_data_stores, List.append_assoc]
      rfl
  | SYNCZ2 =>
    by_cases hc : c = 0
    · rw [b5 hs hc]
      exact ⟨[], (List.append_nil _).symm, rfl⟩
    · rw [b6 hs hc]
      refine ⟨[(line_pos (with_state g sync_state.HSYNC).vs, 0xff),
        (line_pos (put_data (with_state g sync_state.HSYNC) 0xff).vs, 0x00),
        (line_pos (put_data (put_data (with_state g sync_state.HSYNC) 0xff) 0x00).vs, c)],
        ?_, rfl⟩
      rw [put_data_stores, put_data_stores, put_data_stores, List.append_assoc,
        List.append_assoc]
      rfl
  | SYNCAV =>
    obtain ⟨h1, h2⟩ := b7 hs
    refine ⟨[], ?_, ?_⟩
    · rw [h2, List.append_nil]
    · rw [h1]
      rfl

/-- Feeding a stream accounts for each of its bytes. -/
theorem feed_account (o : options_t) (bs : List Nat) : ∀ g : globals_t,
    ∃ w : List (Nat × Nat), (feed o g bs).stores = g.stores ++ w ∧
      w.length + 4 * control_bytes o g bs + pending_preamble (feed o g bs).vs.state
        = bs.length + pending_preamble g.vs.state := by
  induction bs with
  | nil =>
    intro g
    refine ⟨[], (List.append_nil _).symm, ?_⟩
    simp [feed_nil, control_bytes]
  | cons b bs ih =>
    intro g
    obtain ⟨w1, hw1, ha1⟩ := process_account o g b
    obtain ⟨w2, hw2, ha2⟩ := ih (process o g b)
    refine ⟨w1 ++ w2, ?_, ?_⟩
    · rw [feed_cons, hw2, hw1, List.append_assoc]
    · rw [feed_cons, control_bytes, List.length_append, List.length_cons]
      omega

/-- From `HSYNC`, `FF 00` followed by a non-zero byte `c` is flushed as three calls of
`put_data`. -/
theorem feed_false_preamble3 (o : options_t) (g : globals_t) (c : Nat)
    (hs : g.vs.state = sync_state.HSYNC) (hc : c ≠ 0) :
    feed o g [0xff, 0x00, c] = put_data (put_data (put_data g 0xff) 0x00) c := by
  rw [feed_cons, (process_branches o g 0xff).1 hs rfl, feed_cons,
    (process_branches o (with_state g sync_state.SYNCZ1) 0x00).2.2.1 rfl rfl, feed_cons,
    (process_branches o (with_state (with_state g sync_state.SYNCZ1) sync_state.SYNCZ2)
      c).2.2.2.2.2.1 rfl hc, feed_nil]
  have e : with_state (with_state (with_state g sync_state.SYNCZ1) sync_state.SYNCZ2)
      sync_state.HSYNC = g := with_state_self g sync_state.HSYNC hs
  rw [e]

/-- Claim C14. No input byte is lost by preamble handling: for every byte stream of length `n`
fed from `HSYNC`, the number of stores made by `put_data`, plus four times the number of
control bytes consumed in `SYNCAV`, plus the number of preamble bytes held back in the final
state (0 for `HSYNC`, 1 for `SYNCZ1`, 2 for `SYNCZ2`, 3 for `SYNCAV`) is `n`.  In particular
`FF 00 c` with `c ≠ 0x00` makes exactly the three stores `0xff`, `0x00`, `c` and returns to
`HSYNC`, and a complete code `FF 00 00 c` makes no store. -/
theorem C14_byte_accounting (o : options_t) (g : globals_t) (bs : List Nat)
    (hs : g.vs.state = sync_state.HSYNC) :
    (∃ w : List (Nat × Nat), (feed o g bs).stores = g.stores ++ w ∧
      w.length + 4 * control_bytes o g bs + pending_preamble (feed o g bs).vs.state
        = bs.length) ∧
    (∀ c : Nat, c ≠ 0x00 →
      (feed o g [0xff, 0x00, c]).stores =
        g.stores ++
          [(line_pos g.vs, 0xff), (line_pos (put_data g 0xff).vs, 0x00),
           (line_pos (put_data (put_data g 0xff) 0x00).vs, c)] ∧
      (feed o g [0xff, 0x00, c]).vs.state = sync_state.HSYNC) ∧
    (∀ c : Nat, (feed o g [0xff, 0x00, 0x00, c]).stores = g.stores) := by
  refine ⟨?_, ?_, ?_⟩
  · obtain ⟨w, hw, ha⟩ := feed_account o bs g
    rw [hs] at ha
    exact ⟨w, hw, ha⟩
  · intro c hc
    rw [feed_false_preamble3 o g c hs hc]
    refine ⟨?_, hs⟩
    rw [put_data_stores, put_data_stores, put_data_stores, List.append_assoc,
      List.append_assoc]
    rfl
  · intro c
    rw [feed_code o g c hs]
    exact ((process_branches o (with_state g sync_state.SYNCAV) c).2.2.2.2.2.2 rfl).2

/-- Witness for C14: the stream `01 FF 00 00 80 FF 00 07 FF` fed from the initial state makes
4 stores, consumes 1 control byte and ends in `SYNCZ1`: `4 + 4 * 1 + 1 = 9`. -/
theorem C14_byte_accounting_witness :
    (∃ w : List (Nat × Nat),
      (feed ⟨-1, tv_standards.PAL⟩ globals_init
        [0x01, 0xff, 0x00, 0x00, 0x80, 0xff, 0x00, 0x07, 0xff]).stores
          = globals_init.stores ++ w ∧
      w.length +
        4 * control_bytes ⟨-1, tv_standards.PAL⟩ globals_init
          [0x01, 0xff, 0x00, 0x00, 0x80, 0xff, 0x00, 0x07, 0xff] +
        pending_preamble (feed ⟨-1, tv_standards.PAL⟩ globals_init
          [0x01, 0xff, 0x00, 0x00, 0x80, 0xff, 0x00, 0x07, 0xff]).vs.state
        = ([0x01, 0xff, 0x00, 0x00, 0x80, 0xff, 0x00, 0x07, 0xff] : List Nat).length) ∧
    (feed ⟨-1, tv_standards.PAL⟩ globals_init [0xff, 0x00, 0x07]).vs.state
      = sync_state.HSYNC :=
  have h := C14_byte_accounting ⟨-1, tv_standards.PAL⟩ globals_init
    [0x01, 0xff, 0x00, 0x00, 0x80, 0xff, 0x00, 0x07, 0xff] rfl
  ⟨h.1, (h.2.1 0x07 (by decide)).2⟩

/-! ## `FF` after `FF` -/

/-- From `HSYNC`, for `c ≠ 0xff`, the stream `FF FF 00 00 c` is five calls of `put_data`, and
no byte of it is consumed in `SYNCAV`. -/
theorem feed_ff_ff (o : options_t) (g : globals_t) (c : Nat)
    (hs : g.vs.state = sync_state.HSYNC) (hc : c ≠ 0xff) :
    feed o g [0xff, 0xff, 0x00, 0x00, c] =
      put_data (put_data (put_data (put_data (put_data g 0xff) 0xff) 0x00) 0x00) c ∧
    control_bytes o g [0xff, 0xff, 0x00, 0x00, c] = 0 := by
  have h1 : process o g 0xff = with_state g sync_state.SYNCZ1 :=
    (process_branches o g 0xff).1 hs rfl
  have h2 : process o (with_state g sync_state.SYNCZ1) 0xff =
      put_data (put_data g 0xff) 0xff := by
    rw [(process_branches o (with_state g sync_state.SYNCZ1) 0xff).2.2.2.1 rfl (by decide)]
    have e : with_state (with_state g sync_state.SYNCZ1) sync_state.HSYNC = g :=
      with_state_self g sync_state.HSYNC hs
    rw [e]
  have s2 : (put_data (put_data g 0xff) 0xff).vs.state = sync_state.HSYNC := by
    rw [put_data_state, put_data_state, hs]
  have s3 : (put_data (put_data (put_data g 0xff) 0xff) 0x00).vs.state = sync_state.HSYNC := by
    rw [put_data_state, s2]
  have s4 : (put_data (put_data (put_data (put_data g 0xff) 0xff) 0x00) 0x00).vs.state
      = sync_state.HSYNC := by
    rw [put_data_state, s3]
  have h3 : process o (put_data (put_data g 0xff) 0xff) 0x00 =
      put_data (put_data (put_data g 0xff) 0xff) 0x00 :=
    process_hsync_data o _ 0x00 s2 (by decide)
  have h4 : process o (put_data (put_data (put_data g 0xff) 0xff) 0x00) 0x00 =
      put_data (put_data (put_data (put_data g 0xff) 0xff) 0x00) 0x00 :=
    process_hsync_data o _ 0x00 s3 (by decide)
  have h5 : process o (put_data (put_data (put_data (put_data g 0xff) 0xff) 0x00) 0x00) c =
      put_data (put_data (put_data (put_data (put_data g 0xff) 0xff) 0x00) 0x00) c :=
    process_hsync_data o _ c s4 hc
  constructor
  · rw [feed_cons, h1, feed_cons, h2, feed_cons, h3, feed_cons, h4, feed_cons, h5, feed_nil]
  · have n1 : ¬ g.vs.state = sync_state.SYNCAV := by rw [hs]; decide
    have n2 : ¬ (with_state g sync_state.SYNCZ1).vs.state = sync_state.SYNCAV := by
      show ¬ sync_state.SYNCZ1 = sync_state.SYNCAV
      decide
    have n3 : ¬ (put_data (put_data g 0xff) 0xff).vs.state = sync_state.SYNCAV := by
      rw [s2]; decide
    have n4 : ¬ (put_data (put_data (put_data g 0xff) 0xff) 0x00).vs.state
        = sync_state.SYNCAV := by
      rw [s3]; decide
    have n5 : ¬ (put_data (put_data (put_data (put_data g 0xff) 0xff) 0x00) 0x00).vs.state
        = sync_state.SYNCAV := by
      rw [s4]; decide
    rw [control_bytes, h1, control_bytes, h2, control_bytes, h3, control_bytes, h4,
      control_bytes, h5, control_bytes, if_neg n1, if_neg n2, if_neg n3, if_neg n4, if_neg n5]

/-- Claim C16. A `0xff` byte received in `SYNCZ1` does not restart preamble detection: it is
flushed as the two pixel bytes `0xff`, `0xff` and the decoder returns to `HSYNC`.  So for
every byte `c` other than `0xff`, the stream `FF FF 00 00 c` fed from `HSYNC` makes exactly
five stores (of `FF`, `FF`, `00`, `00`, `c`), consumes no control byte in `SYNCAV`, ends in
`HSYNC`, and leaves `line`, `field`, `blank`, `frames_generated`, `stop_sending_requests` (and
the sink) unchanged. -/
theorem C16_ff_in_syncz1 (o : options_t) (g : globals_t) (c : Nat)
    (hs : g.vs.state = sync_state.HSYNC) (hc : c ≠ 0xff) :
    (process o (process o g 0xff) 0xff).vs.state = sync_state.HSYNC ∧
    (process o (process o g 0xff) 0xff).stores =
      g.stores ++ [(line_pos g.vs, 0xff), (line_pos (put_data g 0xff).vs, 0xff)] ∧
    (feed o g [0xff, 0xff, 0x00, 0x00, c]).stores =
      g.stores ++
        [(line_pos g.vs, 0xff),
         (line_pos (put_data g 0xff).vs, 0xff),
         (line_pos (put_data (put_data g 0xff) 0xff).vs, 0x00),
         (line_pos (put_data (put_data (put_data g 0xff) 0xff) 0x00).vs, 0x00),
         (line_pos (put_data (put_data (put_data (put_data g 0xff) 0xff) 0x00) 0x00).vs, c)] ∧
    control_bytes o g [0xff, 0xff, 0x00, 0x00, c] = 0 ∧
    (feed o g [0xff, 0xff, 0x00, 0x00, c]).vs.state = sync_state.HSYNC ∧
    (feed o g [0xff, 0xff, 0x00, 0x00, c]).vs.line = g.vs.line ∧
    (feed o g [0xff, 0xff, 0x00, 0x00, c]).vs.field = g.vs.field ∧
    (feed o g [0xff, 0xff, 0x00, 0x00, c]).vs.blank = g.vs.blank ∧
    (feed o g [0xff, 0xff, 0x00, 0x00, c]).frames_generated = g.frames_generated ∧
    (feed o g [0xff, 0xff, 0x00, 0x00, c]).stop_sending_requests = g.stop_sending_requests ∧
    (feed o g [0xff, 0xff, 0x00, 0x00, c]).sink = g.sink := by
  obtain ⟨hfeed, hcb⟩ := feed_ff_ff o g c hs hc
  have h2 : process o (process o g 0xff) 0xff = put_data (put_data g 0xff) 0xff := by
    have e := feed_false_preamble o g 0xff hs (by decide)
    rw [feed_cons, feed_cons, feed_nil] at e
    exact e
  rw [h2, hfeed]
  refine ⟨?_, ?_, ?_, hcb, ?_, ?_, ?_, ?_, ?_, ?_, ?_⟩
  · rw [put_data_state, put_data_state, hs]
  · rw [put_data_stores, put_data_stores, List.append_assoc]
    rfl
  · rw [put_data_stores, put_data_stores, put_data_stores, put_data_stores, put_data_stores]
    simp only [List.append_assoc, List.singleton_append, List.cons_append, List.nil_append]
  · simp only [put_data_state, hs]
  · simp only [put_data_line]
  · simp only [put_data_field]
  · simp only [put_data_blank]
  · simp only [put_data_frames_generated]
  · simp only [put_data_stop]
  · simp only [put_data_sink]

/-- Witness for C16: `FF FF 00 00 80` fed from the initial state. -/
theorem C16_ff_in_syncz1_witness :
    control_bytes ⟨-1, tv_standards.PAL⟩ globals_init [0xff, 0xff, 0x00, 0x00, 0x80] = 0 ∧
    (feed ⟨-1, tv_standards.PAL⟩ globals_init [0xff, 0xff, 0x00, 0x00, 0x80]).vs.state
      = sync_state.HSYNC :=
  have h := C16_ff_in_syncz1 ⟨-1, tv_standards.PAL⟩ globals_init 0x80 rfl (by decide)
  ⟨h.2.2.2.1, h.2.2.2.2.1⟩

/-! ## Pixel bytes beyond the end of a line -/

/-- Pixel bytes fed from `HSYNC` at the clamped column: every store goes to the one offset
`(2 * line + field + 1) * 1440`, the rest of the frame buffer is left alone, and the column
stays 1440. -/
theorem feed_excess (o : options_t) (bs : List Nat) : ∀ g : globals_t,
    g.vs.state = sync_state.HSYNC → g.vs.col = 1440 → (∀ b ∈ bs, b ≠ 0xff) →
    (feed o g bs).vs.state = sync_state.HSYNC ∧
    (feed o g bs).vs.col = 1440 ∧
    (feed o g bs).vs.line = g.vs.line ∧
    (feed o g bs).vs.field = g.vs.field ∧
    (∃ w : List (Nat × Nat), (feed o g bs).stores = g.stores ++ w ∧ w.length = bs.length ∧
      ∀ p ∈ w, p.1 = (2 * g.vs.line + g.vs.field + 1) * 1440) ∧
    (∀ i, i ≠ (2 * g.vs.line + g.vs.field + 1) * 1440 → (feed o g bs).frame i = g.frame i) := by
  induction bs with
  | nil =>
    intro g hs hcol _
    exact ⟨hs, hcol, rfl, rfl, ⟨[], (List.append_nil _).symm, rfl,
      fun p hp => absurd hp (List.not_mem_nil p)⟩, fun _ _ => rfl⟩
  | cons b bs ih =>
    intro g hs hcol hb
    have hb0 : b ≠ 0xff := hb b (List.mem_cons_self _ _)
    have hbs : ∀ x ∈ bs, x ≠ 0xff := fun x hx => hb x (List.mem_cons_of_mem _ hx)
    have hc1 : (put_data g b).vs.col = 1440 := by
      rw [put_data_col g b (by omega), hcol]
      rfl
    have hpos : line_pos g.vs = (2 * g.vs.line + g.vs.field + 1) * 1440 := by
      unfold line_pos
      rw [hcol]
      ring
    obtain ⟨i1, i2, i3, i4, ⟨w, hw, hwl, hwp⟩, i6⟩ :=
      ih (put_data g b) (by rw [put_data_state]; exact hs) hc1 hbs
    simp only [put_data_line, put_data_field] at i3 i4 hwp i6
    rw [feed_cons, process_hsync_data o g b hs hb0]
    refine ⟨i1, i2, i3, i4, ⟨(line_pos g.vs, b) :: w, ?_, ?_, ?_⟩, ?_⟩
    · rw [hw, put_data_stores, List.append_assoc]
      rfl
    · rw [List.length_cons, List.length_cons, hwl]
    · intro p hp
      rcases List.mem_cons.mp hp with h | h
      · rw [h]
        exact hpos
      · exact hwp p h
    · intro i hi
      rw [i6 i hi, put_data_frame, if_neg (by rw [hpos]; exact hi)]

/-- Claim C17. `put_data` stores exactly one byte: `c` at offset
`(2 * line + field) * 1440 + col`, every other offset of the frame buffer keeping its content.
When `col` is already at its clamp 1440 that offset is `(2 * line + field + 1) * 1440`
(column 0 of the next interleaved row) and `col` stays 1440.  So for pixel bytes fed beyond
the end of a line every store goes to that single offset and the bytes of the current row at
columns 0..1439 are not modified. -/
theorem C17_put_data_clamp (g : globals_t) (c : Nat) :
    ((put_data g c).frame ((2 * g.vs.line + g.vs.field) * 1440 + g.vs.col) = c ∧
      (∀ i, i ≠ (2 * g.vs.line + g.vs.field) * 1440 + g.vs.col →
        (put_data g c).frame i = g.frame i) ∧
      (put_data g c).stores =
        g.stores ++ [((2 * g.vs.line + g.vs.field) * 1440 + g.vs.col, c)]) ∧
    (g.vs.col = 1440 →
      (put_data g c).stores = g.stores ++ [((2 * g.vs.line + g.vs.field + 1) * 1440, c)] ∧
      (put_data g c).vs.col = 1440) ∧
    (∀ (o : options_t) (bs : List Nat), g.vs.state = sync_state.HSYNC → g.vs.col = 1440 →
      (∀ b ∈ bs, b ≠ 0xff) →
        (feed o g bs).vs.col = 1440 ∧
        (∃ w : List (Nat × Nat), (feed o g bs).stores = g.stores ++ w ∧
          w.length = bs.length ∧
          ∀ p ∈ w, p.1 = (2 * g.vs.line + g.vs.field + 1) * 1440) ∧
        (∀ k, k < 1440 →
          (feed o g bs).frame ((2 * g.vs.line + g.vs.field) * 1440 + k) =
            g.frame ((2 * g.vs.line + g.vs.field) * 1440 + k))) := by
  have hpos : line_pos g.vs = (2 * g.vs.line + g.vs.field) * 1440 + g.vs.col := rfl
  refine ⟨⟨?_, ?_, ?_⟩, ?_, ?_⟩
  · rw [put_data_frame, if_pos hpos.symm]
  · intro i hi
    rw [put_data_frame, if_neg (by rw [hpos]; exact hi)]
  · rw [put_data_stores, hpos]
  · intro hcol
    refine ⟨?_, ?_⟩
    · rw [put_data_stores, hpos, hcol]
      have e : (2 * g.vs.line + g.vs.field) * 1440 + 1440 =
          (2 * g.vs.line + g.vs.field + 1) * 1440 := by ring
      rw [e]
    · rw [put_data_col g c (by omega), hcol]
      rfl
  · intro o bs hs hcol hb
    obtain ⟨-, i2, -, -, i5, i6⟩ := feed_excess o bs g hs hcol hb
    refine ⟨i2, i5, ?_⟩
    intro k hk
    apply i6
    have e : (2 * g.vs.line + g.vs.field + 1) * 1440 =
        (2 * g.vs.line + g.vs.field) * 1440 + 1440 := by ring
    rw [e]
    omega

/-- Witness for C17: at line 3, field 1, column 1440, the pixel bytes `05 06` both go to
offset `(2 * 3 + 1 + 1) * 1440`, and `put_data` keeps the column at 1440. -/
theorem C17_put_data_clamp_witness :
    (put_data { globals_init with vs := ⟨3, 1440, sync_state.HSYNC, 1, 0⟩ } 0x05).vs.col
      = 1440 ∧
    (feed ⟨-1, tv_standards.PAL⟩
      { globals_init with vs := ⟨3, 1440, sync_state.HSYNC, 1, 0⟩ } [0x05, 0x06]).vs.col
      = 1440 :=
  have h := C17_put_data_clamp { globals_init with vs := ⟨3, 1440, sync_state.HSYNC, 1, 0⟩ }
    0x05
  ⟨(h.2.1 rfl).2, (h.2.2 ⟨-1, tv_standards.PAL⟩ [0x05, 0x06] rfl rfl (by decide)).1⟩

/-! ## Strides are not bounded by the actual length -/

/-- Claim C18. The block loop of `gotdata` does not bound a stride by the packet's actual
length `L > 0`: it visits the strides at `pos = 0, 1024, ...` while `pos < L`, that is
`⌈L / 1024⌉` of them, and its effect is that of feeding the full 1020-byte payload of every
visited stride that starts with `AA AA 00 00`.  For such a stride at `pos < L` all bytes at
offsets `pos + 4 .. pos + 1023` go to `process`, whether or not those offsets are below `L`;
so for `L ≤ 1024` with the marker at offset 0 the bytes at offsets `4 .. 1023` are decoded,
also those at offsets `≥ L`. -/
theorem C18_stride_overrun (o : options_t) (data : Nat → Nat) (L : Nat) (g : globals_t)
    (hL : 0 < L) :
    gotdata_blocks o data L 0 g = feed o g (spec_payload data ((L + 1023) / 1024)) ∧
    (∀ j : Nat, j < (L + 1023) / 1024 ↔ 1024 * j < L) ∧
    (∀ (pos : Nat) (g1 : globals_t), pos < L →
      (data pos = 0xaa ∧ data (pos + 1) = 0xaa ∧ data (pos + 2) = 0x00 ∧
        data (pos + 3) = 0x00) →
      gotdata_blocks o data L pos g1 =
        gotdata_blocks o data L (pos + 1024)
          (feed o g1 ((List.range 1020).map fun k => data (pos + 4 + k)))) ∧
    (L ≤ 1024 →
      (data 0 = 0xaa ∧ data 1 = 0xaa ∧ data 2 = 0x00 ∧ data 3 = 0x00) →
      gotdata_blocks o data L 0 g =
        feed o g ((List.range 1020).map fun k => data (0 + 4 + k))) := by
  refine ⟨gotdata_blocks_eq_feed o data L g, ?_, ?_, ?_⟩
  · intro j
    omega
  · intro pos g1 hpos hm
    rw [gotdata_blocks_step o data L pos g1 hpos, if_pos hm, gotdata_block_eq_feed]
  · intro hle hm
    rw [gotdata_blocks_step o data L 0 g hL, if_pos hm, gotdata_block_eq_feed,
      gotdata_blocks_done o data L _ _ (by omega)]

/-- Witness for C18: a packet of actual length 5 that starts with the marker; the 1020 bytes
at offsets 4..1023 are fed to `process`. -/
theorem C18_stride_overrun_witness :
    gotdata_blocks ⟨-1, tv_standards.PAL⟩ (fun i => if i < 2 then 0xaa else 0) 5 0
        globals_init =
      feed ⟨-1, tv_standards.PAL⟩ globals_init
        ((List.range 1020).map fun k => (fun i => if i < 2 then 0xaa else 0) (0 + 4 + k)) :=
  (C18_stride_overrun ⟨-1, tv_standards.PAL⟩ (fun i => if i < 2 then 0xaa else 0) 5
    globals_init (by decide)).2.2.2 (by decide) (by decide)

end Capture
